import Mathlib

/-!
Shallow embedding of the per-tick world-advancement core of the simulation
(src/client/src/lib/game-engine.ts) and verification of the frozen claims
about it.

Modelling conventions:
* JavaScript numbers are modelled as rationals; integer-valued fields
  (ids, tick counters, durations, severities) as naturals or integers.
* Math.random() draws are supplied by an explicit oracle structure; a draw
  is faithful when it lies in [0,1), captured by the validity predicates.
* The trigonometric direction vectors (cos/sin of Math.atan2 results) are
  oracle-supplied pairs, since no verified claim depends on their values.
* Distance comparisons are performed on squared distances: for c at least 0,
  dist(p, q) < c holds iff dist2(p, q) < c ^ 2, which avoids square roots.
* Presentation-only fields (names, colors of villagers, thought strings,
  the narrated message strings of log events, gender, pregnancy fields that
  the tick logic never reads) and the emitted GameEvent log are omitted;
  no claim mentions them.  The global mutable cooldown counters
  (lastImmigrationTick, lastSplitTick) are threaded through the call
  explicitly, as recommended by the design notes of the specification.
* Indexing an empty array, which in JavaScript yields undefined and makes
  the subsequent member access throw, is modelled by Option: the tick
  returns none exactly where the source would throw.
-/

namespace Isola

/-- One squared Euclidean distance; the source computes
  Math.sqrt((x2-x1)^2 + (y2-y1)^2) and only compares it against
  non-negative thresholds. -/
def dist2 (x1 y1 x2 y2 : ℚ) : ℚ :=
  (x2 - x1) ^ 2 + (y2 - y1) ^ 2

/-- clamp(val, min, max) = Math.max(min, Math.min(max, val)). -/
def clamp (val lo hi : ℚ) : ℚ :=
  max lo (min hi val)

/-- Math.round for rationals (JavaScript rounds half away from zero for
  positive values; the engine only rounds coordinates inside map bounds,
  which are positive). -/
def jsRound (q : ℚ) : ℤ :=
  ⌊q + 1 / 2⌋

/-- Math.floor producing a natural index (all floored quantities in the
  engine are non-negative). -/
def jsFloorN (q : ℚ) : ℕ :=
  (⌊q⌋).toNat

-- === CONSTANTS (game-engine.ts lines 14-37) ===
def MOVEMENT_SPEED : ℚ := 2
def HUNGER_RATE : ℚ := 0.04
def ENERGY_RATE : ℚ := 0.025
def HEALING_RATE : ℚ := 0.15
def MAP_WIDTH : ℚ := 3200
def MAP_HEIGHT : ℚ := 2400

def IMMIGRATION_CHANCE_PER_TICK : ℚ := 0.0003
def MIN_IMMIGRATION_INTERVAL : ℤ := 2000

def MIN_POP_FOR_SPLIT : ℕ := 8
def SPLIT_CHANCE_PER_TICK : ℚ := 0.0001
def MIN_SPLIT_INTERVAL : ℤ := 5000

def STARVATION_THRESHOLD : ℚ := 95
def DEATH_FROM_STARVATION_CHANCE : ℚ := 0.005
def RANDOM_EVENT_CHANCE : ℚ := 0.0002
def DISEASE_SPREAD_CHANCE : ℚ := 0.1
def ACCIDENT_CHANCE : ℚ := 0.00005

/-- A static resource node position. -/
structure Pt where
  x : ℚ
  y : ℚ
deriving DecidableEq

/-- Static tree positions (RESOURCES.trees). -/
def trees : List Pt :=
  [⟨150, 150⟩, ⟨250, 100⟩, ⟨100, 250⟩, ⟨300, 200⟩,
   ⟨350, 120⟩, ⟨200, 300⟩, ⟨120, 380⟩,
   ⟨2800, 2000⟩, ⟨2700, 2100⟩, ⟨2850, 1900⟩, ⟨2950, 2050⟩,
   ⟨3000, 2200⟩, ⟨2650, 1950⟩,
   ⟨1200, 1000⟩, ⟨1300, 950⟩, ⟨1150, 1080⟩, ⟨1400, 1020⟩,
   ⟨1600, 1200⟩, ⟨1550, 1150⟩, ⟨1700, 1250⟩,
   ⟨400, 1800⟩, ⟨350, 1900⟩, ⟨500, 1750⟩, ⟨300, 2000⟩,
   ⟨2400, 400⟩, ⟨2500, 350⟩, ⟨2350, 500⟩, ⟨2600, 450⟩,
   ⟨2800, 1200⟩, ⟨2900, 1150⟩, ⟨2750, 1300⟩,
   ⟨400, 1200⟩, ⟨350, 1100⟩, ⟨500, 1300⟩]

/-- Static rock positions (RESOURCES.rocks). -/
def rocks : List Pt :=
  [⟨2400, 200⟩, ⟨2600, 100⟩, ⟨2700, 240⟩, ⟨2500, 300⟩,
   ⟨200, 1600⟩, ⟨100, 1700⟩, ⟨300, 1550⟩,
   ⟨1600, 400⟩, ⟨1700, 350⟩, ⟨1550, 450⟩,
   ⟨1800, 1800⟩, ⟨1900, 1750⟩, ⟨1750, 1850⟩,
   ⟨2800, 800⟩, ⟨2900, 750⟩, ⟨2700, 850⟩,
   ⟨600, 600⟩, ⟨700, 550⟩, ⟨550, 650⟩]

/-- The closed set of villager actions (string-tagged in the source). -/
inductive Action where
  | idle | farming | building | gathering | research | eating | sleeping | fleeing
deriving DecidableEq

/-- World event categories (string-tagged in the source). -/
inductive EvType where
  | wildAnimal | disease | fire | storm | blessing
deriving DecidableEq

/-- Villager record (shared/schema.ts villagers table), restricted to the
  fields the tick logic reads or writes. -/
structure Villager where
  id : ℕ
  tribeId : ℕ
  age : ℤ
  health : ℚ
  energy : ℚ
  hunger : ℚ
  happiness : ℚ
  skillFarming : ℚ
  skillBuilding : ℚ
  skillResearch : ℚ
  skillGathering : ℚ
  skillHealing : ℚ
  skillCombat : ℚ
  action : Action
  targetX : Option ℚ
  targetY : Option ℚ
  posX : ℚ
  posY : ℚ
  traits : List String
  causeOfDeath : Option String
  isDead : Bool
deriving DecidableEq

/-- Tribe record (shared/schema.ts tribes table), restricted to the fields
  the tick logic reads or writes. -/
structure Tribe where
  id : ℕ
  color : String
  food : ℚ
  wood : ℚ
  stone : ℚ
  techPoints : ℚ
  centerX : ℚ
  centerY : ℚ
  territoryRadius : ℚ
  priorityFarming : ℚ
  priorityBuilding : ℚ
  priorityResearch : ℚ
  priorityGathering : ℚ
  priorityDefense : ℚ
  isPlayerTribe : Bool
  foundedTick : ℕ
deriving DecidableEq

/-- Transient world event record (shared/schema.ts worldEvents table). -/
structure WorldEvent where
  id : ℕ
  type : EvType
  posX : ℚ
  posY : ℚ
  radius : ℚ
  severity : ℕ
  duration : ℤ
  affectedTribeId : Option ℕ
deriving DecidableEq

/-- Global simulation state (shared/schema.ts gameState table), restricted
  to the fields the tick logic reads or writes. -/
structure GameState where
  gameTick : ℕ
  immigrationEnabled : Bool
  tribeSplittingEnabled : Bool
  randomEventsEnabled : Bool
deriving DecidableEq

/-- An active hazard derived from the world events (RESOURCES.dangers). -/
structure Danger where
  x : ℚ
  y : ℚ
  type : EvType
  severity : ℕ
deriving DecidableEq

/-- TRIBE_COLORS from shared/schema.ts. -/
def TRIBE_COLORS : List String :=
  ["#4a90a4", "#a44a4a", "#4aa45a", "#a4904a",
   "#7a4aa4", "#4aa4a4", "#a4744a", "#6a6a6a"]

/-- The accident flavour strings of the random-accident branch. -/
def accidentTypes : List String :=
  ["fell from a tree", "had a hunting accident",
   "was struck by lightning", "drowned crossing a river"]

/-- Oracle holding the Math.random() draws consumed while processing a
  single villager in one tick, in source order, plus the oracle-supplied
  direction vectors standing for the cos/sin of computed angles. -/
structure VOracle where
  starveRoll : ℚ
  noticeRoll : ℚ
  fleeDirX : ℚ
  fleeDirY : ℚ
  wildRoll : ℚ
  wildDmgU : ℚ
  diseaseRoll : ℚ
  diseaseDmgU : ℚ
  accRoll : ℚ
  accTypeU : ℚ
  accDmgU : ℚ
  sleepJXU : ℚ
  sleepJYU : ℚ
  taskU : ℚ
  farmU1 : ℚ
  farmU2 : ℚ
  moveDirX : ℚ
  moveDirY : ℚ
  finishRoll : ℚ
  wanderRoll : ℚ
  wanderU1 : ℚ
  wanderU2 : ℚ
  skillRoll : ℚ

/-- A uniform draw of Math.random(): a rational in [0,1). -/
def u01 (q : ℚ) : Prop := 0 ≤ q ∧ q < 1

/-- Validity of a per-villager oracle: every draw lies in [0,1) and the
  direction components lie in [-1,1]. -/
def VOracle.Valid (o : VOracle) : Prop :=
  u01 o.starveRoll ∧ u01 o.noticeRoll ∧ u01 o.wildRoll ∧ u01 o.wildDmgU ∧
  u01 o.diseaseRoll ∧ u01 o.diseaseDmgU ∧ u01 o.accRoll ∧ u01 o.accTypeU ∧
  u01 o.accDmgU ∧ u01 o.sleepJXU ∧ u01 o.sleepJYU ∧ u01 o.taskU ∧
  u01 o.farmU1 ∧ u01 o.farmU2 ∧ u01 o.finishRoll ∧ u01 o.wanderRoll ∧
  u01 o.wanderU1 ∧ u01 o.wanderU2 ∧ u01 o.skillRoll ∧
  -1 ≤ o.fleeDirX ∧ o.fleeDirX ≤ 1 ∧ -1 ≤ o.fleeDirY ∧ o.fleeDirY ≤ 1 ∧
  -1 ≤ o.moveDirX ∧ o.moveDirX ≤ 1 ∧ -1 ≤ o.moveDirY ∧ o.moveDirY ≤ 1

/-- Oracle for every Math.random() draw a whole tick can consume. -/
structure TickOracle where
  vo : ℕ → VOracle
  immRoll : ℚ
  immPickU : ℚ
  immId : ℕ
  immAgeU : ℚ
  immHealthU : ℚ
  immEnergyU : ℚ
  immHungerU : ℚ
  immHappinessU : ℚ
  immSkFarmU : ℚ
  immSkBuildU : ℚ
  immSkResU : ℚ
  immSkGathU : ℚ
  immSkHealU : ℚ
  immSkCombU : ℚ
  immSideU : ℚ
  immPosYU : ℚ
  immTraits : List String
  splitRoll : ℕ → ℚ
  splitCountU : ℚ
  splitCands : ℕ → ℚ × ℚ
  splitTribeId : ℕ
  splitColorU : ℚ
  splitOff : ℕ → ℚ × ℚ
  evRoll : ℚ
  evTypeU : ℚ
  evTribeU : ℚ
  evOffXU : ℚ
  evOffYU : ℚ
  evAmtU : ℚ
  evRadiusU : ℚ
  evSeverityU : ℚ
  evDurationU : ℚ
  evId : ℕ

/-- Validity of a tick oracle: every draw lies in [0,1). -/
def TickOracle.Valid (o : TickOracle) : Prop :=
  (∀ i, (o.vo i).Valid) ∧
  u01 o.immRoll ∧ u01 o.immPickU ∧ u01 o.immAgeU ∧ u01 o.immHealthU ∧
  u01 o.immEnergyU ∧ u01 o.immHungerU ∧ u01 o.immHappinessU ∧
  u01 o.immSkFarmU ∧ u01 o.immSkBuildU ∧ u01 o.immSkResU ∧
  u01 o.immSkGathU ∧ u01 o.immSkHealU ∧ u01 o.immSkCombU ∧
  u01 o.immSideU ∧ u01 o.immPosYU ∧
  (∀ i, u01 (o.splitRoll i)) ∧ u01 o.splitCountU ∧
  (∀ i, u01 (o.splitCands i).1 ∧ u01 (o.splitCands i).2) ∧
  u01 o.splitColorU ∧ (∀ i, u01 (o.splitOff i).1 ∧ u01 (o.splitOff i).2) ∧
  u01 o.evRoll ∧ u01 o.evTypeU ∧ u01 o.evTribeU ∧ u01 o.evOffXU ∧
  u01 o.evOffYU ∧ u01 o.evAmtU ∧ u01 o.evRadiusU ∧ u01 o.evSeverityU ∧
  u01 o.evDurationU

-- === HELPERS OVER LISTS (array mutation by index lookup) ===

/-- Apply f to the first element satisfying p, as the source does with
  findIndex followed by an indexed assignment; a miss leaves the list
  unchanged. -/
def modifyFirst (p : α → Bool) (f : α → α) : List α → List α
  | [] => []
  | a :: as => if p a then f a :: as else a :: modifyFirst p f as

/-- Write a processed villager copy back over the first entry carrying its
  id (newVillagers[idx] = villager after findIndex on id). -/
def updateById (vs : List Villager) (v : Villager) : List Villager :=
  modifyFirst (fun w => w.id == v.id) (fun _ => v) vs

/-- Living members of one tribe
  (newVillagers.filter(v => v.tribeId === t.id && !v.isDead)). -/
def livingOf (vs : List Villager) (tid : ℕ) : List Villager :=
  vs.filter (fun v => v.tribeId == tid && !v.isDead)

/-- RESOURCES.dangers recomputed from the current world events. -/
def dangersFrom (events : List WorldEvent) : List Danger :=
  (events.filter (fun e =>
      decide (e.type = EvType.wildAnimal ∨ e.type = EvType.fire ∨
              e.type = EvType.disease))).map
    (fun e => ⟨e.posX, e.posY, e.type, e.severity⟩)

/-- The reduce-based nearest-node search of the idle task assignment; the
  source starts from { node: nodes[0], dist: Infinity }, modelled with an
  Option-valued best distance (none = Infinity). -/
def nearestPt (cx cy : ℚ) (pts : List Pt) : Pt :=
  (pts.foldl
    (fun acc p =>
      let d := dist2 cx cy p.x p.y
      match acc.2 with
      | none => (p, some d)
      | some bd => if d < bd then (p, some d) else acc)
    (pts.headD ⟨0, 0⟩, none)).1

-- === PER-VILLAGER PROCESSING (game-engine.ts lines 152-349) ===

/-- Vital decay, starvation damage and death, sleep recovery
  (lines 155-182). -/
def vitalsStage (v : Villager) (o : VOracle) : Villager :=
  let v := { v with hunger := min 100 (v.hunger + HUNGER_RATE),
                    energy := max 0 (v.energy - ENERGY_RATE) }
  let v :=
    if STARVATION_THRESHOLD ≤ v.hunger then
      let v := { v with health := max 0 (v.health - 0.15) }
      if v.health ≤ 0 ∨ (100 ≤ v.hunger ∧ o.starveRoll < DEATH_FROM_STARVATION_CHANCE) then
        { v with isDead := true, causeOfDeath := some "starvation" }
      else v
    else v
  if v.isDead then v
  else if v.action = Action.sleeping then
    { v with energy := min 100 (v.energy + 0.6),
             health := min 100 (v.health + HEALING_RATE) }
  else v

/-- Trait-modulated chance of noticing a nearby danger (lines 189-190). -/
def noticeChanceOf (v : Villager) : ℚ :=
  if v.traits.contains "Cautious" then 0.9
  else if v.traits.contains "Reckless" then 0.3
  else 0.6

/-- Danger detection, fleeing, and hazard harm (lines 184-232). -/
def dangerStage (dangers : List Danger) (v : Villager) (o : VOracle) : Villager :=
  match dangers.find? (fun d => dist2 v.posX v.posY d.x d.y < 80 ^ 2) with
  | none => v
  | some nearbyDanger =>
    if v.action ≠ Action.fleeing then
      if o.noticeRoll < noticeChanceOf v then
        { v with action := Action.fleeing,
                 targetX := some ((jsRound (clamp (v.posX + o.fleeDirX * 150) 50 (MAP_WIDTH - 50)) : ℤ) : ℚ),
                 targetY := some ((jsRound (clamp (v.posY + o.fleeDirY * 150) 50 (MAP_HEIGHT - 50)) : ℤ) : ℚ) }
      else if nearbyDanger.type = EvType.wildAnimal ∧ o.wildRoll < 0.02 * (nearbyDanger.severity : ℚ) then
        let v := { v with health := v.health - (15 + o.wildDmgU * 20 * (nearbyDanger.severity : ℚ)) }
        if v.health ≤ 0 then
          { v with isDead := true, causeOfDeath := some "wildlife attack" }
        else v
      else if nearbyDanger.type = EvType.disease ∧ o.diseaseRoll < DISEASE_SPREAD_CHANCE then
        let v := { v with health := v.health - (5 + o.diseaseDmgU * 10) }
        if v.health ≤ 0 then
          { v with isDead := true, causeOfDeath := some "disease" }
        else v
      else v
    else v

/-- Random accidents (lines 234-256). -/
def accidentStage (v : Villager) (o : VOracle) : Villager :=
  if o.accRoll < ACCIDENT_CHANCE then
    let accident := accidentTypes.getD (jsFloorN (o.accTypeU * 4)) "fell from a tree"
    let severity : ℚ := if v.traits.contains "Lucky" then 0.5 else 1
    let v := { v with health := v.health - ((20 + o.accDmgU * 40) * severity) }
    if v.health ≤ 0 then
      { v with isDead := true, causeOfDeath := some accident }
    else v
  else v

/-- The idle task pick (lines 284-314): a draw over the constant range 30
  compared against the cumulative priority weights. -/
def pickIdleTask (t : Tribe) (u : ℚ) : Action :=
  let roll := u * 30
  if roll < t.priorityFarming then Action.farming
  else if roll < t.priorityFarming + t.priorityBuilding then Action.building
  else if roll < t.priorityFarming + t.priorityBuilding + t.priorityGathering then Action.gathering
  else Action.research

/-- Target assignment for a freshly picked idle task (lines 288-314). -/
def assignTask (t : Tribe) (v : Villager) (o : VOracle) : Villager :=
  match pickIdleTask t o.taskU with
  | Action.farming =>
    { v with action := Action.farming,
             targetX := some (t.centerX - 80 + o.farmU1 * 160),
             targetY := some (t.centerY + 40 + o.farmU2 * 80) }
  | Action.building =>
    let nearestRock := nearestPt t.centerX t.centerY rocks
    { v with action := Action.building,
             targetX := some nearestRock.x, targetY := some nearestRock.y }
  | Action.gathering =>
    let nearestTree := nearestPt t.centerX t.centerY trees
    { v with action := Action.gathering,
             targetX := some nearestTree.x, targetY := some nearestTree.y }
  | _ =>
    { v with action := Action.research,
             targetX := some t.centerX, targetY := some (t.centerY - 30) }

/-- JavaScript truthiness of an optional numeric field: null and 0 are
  falsy (the flee-arrival check reads villager.targetX && villager.targetY). -/
def optTruthy : Option ℚ → Bool
  | none => false
  | some q => !(q == 0)

/-- Decision logic (lines 258-315): emergency eating, emergency sleeping
  (an independent if, not an else-if), flee-arrival resolution, idle pick. -/
def decideAction (tribe : Tribe) (v : Villager) (o : VOracle) : Villager :=
  let v :=
    if 65 < v.hunger ∧ v.action ≠ Action.eating ∧ 0 < tribe.food then
      { v with action := Action.eating,
               targetX := some tribe.centerX, targetY := some tribe.centerY }
    else v
  let v :=
    if v.energy < 15 ∧ v.action ≠ Action.sleeping then
      { v with action := Action.sleeping,
               targetX := some (tribe.centerX + (o.sleepJXU - 0.5) * 40),
               targetY := some (tribe.centerY + (o.sleepJYU - 0.5) * 40) }
    else v
  let v :=
    if v.action = Action.fleeing then
      if optTruthy v.targetX ∧ optTruthy v.targetY ∧
         dist2 v.posX v.posY (v.targetX.getD 0) (v.targetY.getD 0) < 10 ^ 2 then
        { v with action := Action.idle, targetX := none, targetY := none }
      else v
    else v
  if v.action = Action.idle then assignTask tribe v o else v

/-- skillBonus = 1 + skill * 0.015. -/
def skillBonus (skill : ℚ) : ℚ := 1 + skill * 0.015

/-- Work execution on arrival (performWork, lines 582-612). -/
def performWork (v : Villager) (tribe : Tribe) (o : VOracle) : Villager × Tribe :=
  match v.action with
  | Action.eating =>
    if 0 < tribe.food then
      let tribe := { tribe with food := max 0 (tribe.food - 0.08) }
      let v := { v with hunger := max 0 (v.hunger - 1.2) }
      if v.hunger ≤ 5 then
        ({ v with action := Action.idle, targetX := none, targetY := none }, tribe)
      else (v, tribe)
    else ({ v with action := Action.idle, targetX := none, targetY := none }, tribe)
  | Action.gathering =>
    let tribe := { tribe with wood := tribe.wood + 0.04 * skillBonus v.skillGathering }
    (if o.skillRoll < 0.0008 then
       { v with skillGathering := min 100 (v.skillGathering + 1) } else v, tribe)
  | Action.farming =>
    let tribe := { tribe with food := tribe.food + 0.05 * skillBonus v.skillFarming }
    (if o.skillRoll < 0.0008 then
       { v with skillFarming := min 100 (v.skillFarming + 1) } else v, tribe)
  | Action.building =>
    let tribe := { tribe with stone := tribe.stone + 0.02 * skillBonus v.skillBuilding }
    (if o.skillRoll < 0.0008 then
       { v with skillBuilding := min 100 (v.skillBuilding + 1) } else v, tribe)
  | Action.research =>
    let tribe := { tribe with techPoints := tribe.techPoints + 0.015 * skillBonus v.skillResearch }
    (if o.skillRoll < 0.0008 then
       { v with skillResearch := min 100 (v.skillResearch + 1) } else v, tribe)
  | _ => (v, tribe)

/-- Movement toward the target, work on arrival, idle wander
  (lines 317-345). -/
def movementStage (tribe : Tribe) (v : Villager) (o : VOracle) : Villager × Tribe :=
  match v.targetX, v.targetY with
  | some tx, some ty =>
    let d2 := dist2 v.posX v.posY tx ty
    let speed := if v.action = Action.fleeing then MOVEMENT_SPEED * 2 else MOVEMENT_SPEED
    if 8 ^ 2 < d2 then
      ({ v with posX := clamp (v.posX + o.moveDirX * speed) 10 (MAP_WIDTH - 10),
                posY := clamp (v.posY + o.moveDirY * speed) 10 (MAP_HEIGHT - 10) }, tribe)
    else
      let vt := performWork v tribe o
      if o.finishRoll < 0.008 then
        ({ vt.1 with action := Action.idle, targetX := none, targetY := none }, vt.2)
      else vt
  | _, _ =>
    if o.wanderRoll < 0.03 then
      ({ v with posX := clamp (v.posX + (o.wanderU1 - 0.5) * 15)
                         (tribe.centerX - tribe.territoryRadius)
                         (tribe.centerX + tribe.territoryRadius),
                posY := clamp (v.posY + (o.wanderU2 - 0.5) * 15)
                         (tribe.centerY - tribe.territoryRadius)
                         (tribe.centerY + tribe.territoryRadius) }, tribe)
    else (v, tribe)

/-- Full processing of one villager within a tick (lines 152-345); a death
  branch short-circuits the remaining stages (continue in the source). -/
def stepVillager (dangers : List Danger) (tribe : Tribe) (v : Villager)
    (o : VOracle) : Villager × Tribe :=
  let v1 := vitalsStage v o
  if v1.isDead then (v1, tribe) else
  let v2 := dangerStage dangers v1 o
  if v2.isDead then (v2, tribe) else
  let v3 := accidentStage v2 o
  if v3.isDead then (v3, tribe) else
  let v4 := decideAction tribe v3 o
  movementStage tribe v4 o

/-- Process the snapshot roster of one tribe, threading the tribe record
  and the global villager list; a villager whose processed copy is dead is
  not written back (the continue skips newVillagers[idx] = villager). -/
def processTribeVillagers (dangers : List Danger) (o : ℕ → VOracle) :
    List Villager → Tribe → List Villager → Tribe × List Villager
  | [], t, vs => (t, vs)
  | v :: rest, t, vs =>
    let vt := stepVillager dangers t v (o v.id)
    let vs' := if vt.1.isDead then vs else updateById vs vt.1
    processTribeVillagers dangers o rest vt.2 vs'

/-- Process one tribe: snapshot its living roster, then run every member
  (lines 147-351, one iteration of the outer loop). -/
def processOneTribe (dangers : List Danger) (o : ℕ → VOracle) (t : Tribe)
    (vs : List Villager) : Tribe × List Villager :=
  processTribeVillagers dangers o (livingOf vs t.id) t vs

/-- The per-tribe, per-villager processing loop (lines 146-351). -/
def processAllTribes (dangers : List Danger) (o : ℕ → VOracle) :
    List Tribe → List Villager → List Tribe × List Villager
  | [], vs => ([], vs)
  | t :: ts, vs =>
    let r := processOneTribe dangers o t vs
    let rest := processAllTribes dangers o ts r.2
    (r.1 :: rest.1, rest.2)

-- === IMMIGRATION (lines 353-421) ===

/-- The immigrant villager record (lines 378-407), with presentation-only
  fields omitted. -/
def buildImmigrant (o : TickOracle) (tid : ℕ) : Villager where
  id := o.immId
  tribeId := tid
  age := 16 + ⌊o.immAgeU * 20⌋
  health := 70 + o.immHealthU * 30
  energy := 50 + o.immEnergyU * 30
  hunger := 20 + o.immHungerU * 30
  happiness := 60 + o.immHappinessU * 30
  skillFarming := ((⌊o.immSkFarmU * 20⌋ : ℤ) : ℚ)
  skillBuilding := ((⌊o.immSkBuildU * 20⌋ : ℤ) : ℚ)
  skillResearch := ((⌊o.immSkResU * 15⌋ : ℤ) : ℚ)
  skillGathering := ((⌊o.immSkGathU * 25⌋ : ℤ) : ℚ)
  skillHealing := ((⌊o.immSkHealU * 10⌋ : ℤ) : ℚ)
  skillCombat := ((⌊o.immSkCombU * 15⌋ : ℤ) : ℚ)
  action := Action.idle
  targetX := none
  targetY := none
  posX := if 0.5 < o.immSideU then 10 else MAP_WIDTH - 10
  posY := 100 + o.immPosYU * (MAP_HEIGHT - 200)
  traits := o.immTraits
  causeOfDeath := none
  isDead := false

/-- Cumulative-weight selection (lines 367-375): subtract weights from the
  roll until it is no longer positive; a fall-through keeps the default
  first candidate. -/
def pickWeighted : List ℚ → ℚ → ℕ → Option ℕ
  | [], _, _ => none
  | w :: ws, r, i => if r - w ≤ 0 then some i else pickWeighted ws (r - w) (i + 1)

/-- The immigration subsystem (lines 353-421); returns the updated villager
  list and the updated lastImmigrationTick counter. -/
def immigrationPhase (state : GameState) (lastImmigrationTick : ℕ)
    (o : TickOracle) (tribes : List Tribe) (vs : List Villager) :
    List Villager × ℕ :=
  if state.immigrationEnabled ∧
     MIN_IMMIGRATION_INTERVAL < (state.gameTick : ℤ) - (lastImmigrationTick : ℤ) ∧
     o.immRoll < IMMIGRATION_CHANCE_PER_TICK then
    let aliveTribes := tribes.filter (fun t => 0 < (livingOf vs t.id).length)
    match aliveTribes with
    | [] => (vs, lastImmigrationTick)
    | t0 :: _ =>
      let weights := aliveTribes.map
        (fun t => max 1 (10 - ((livingOf vs t.id).length : ℚ)))
      let totalWeight := weights.foldl (· + ·) 0
      let roll := o.immPickU * totalWeight
      let targetTribe :=
        match pickWeighted weights roll 0 with
        | some i => aliveTribes.getD i t0
        | none => t0
      (vs ++ [buildImmigrant o targetTribe.id], state.gameTick)
  else (vs, lastImmigrationTick)

-- === TRIBE SPLITTING (lines 423-507) ===

/-- Candidate center coordinates from one pair of draws (lines 438-439). -/
def candCoords (c : ℚ × ℚ) : ℚ × ℚ :=
  (150 + c.1 * (MAP_WIDTH - 300), 150 + c.2 * (MAP_HEIGHT - 300))

/-- Whether a candidate center is within 300 of an existing tribe center
  (line 443). -/
def tooClose (tribes : List Tribe) (p : ℚ × ℚ) : Bool :=
  tribes.any (fun t => dist2 t.centerX t.centerY p.1 p.2 < 300 ^ 2)

/-- The rejection-sampling do-while of lines 437-444: try successive
  candidates while attempts < 30 and the candidate is too close, falling
  back to the last candidate. -/
def findCenterGo (tribes : List Tribe) (cands : ℕ → ℚ × ℚ) :
    ℕ → ℕ → ℚ × ℚ
  | i, 0 => candCoords (cands i)
  | i, fuel + 1 =>
    let c := candCoords (cands i)
    if tooClose tribes c then findCenterGo tribes cands (i + 1) fuel else c

/-- Search for a new territory center (lines 434-444); at most 30 candidate
  draws. -/
def findCenter (tribes : List Tribe) (cands : ℕ → ℚ × ℚ) : ℚ × ℚ :=
  findCenterGo tribes cands 0 29

/-- Apply one tribe split (lines 429-504) for the given source tribe. -/
def applySplit (state : GameState) (o : TickOracle) (tribes : List Tribe)
    (vs : List Villager) (tribe : Tribe) : List Tribe × List Villager :=
  let tribePop := livingOf vs tribe.id
  let splitCount := 2 + jsFloorN (o.splitCountU * 2)
  let splitters := tribePop.take splitCount
  let newCenter := findCenter tribes o.splitCands
  let usedColors := tribes.map Tribe.color
  let availableColors := TRIBE_COLORS.filter (fun c => !usedColors.contains c)
  let newColor :=
    if 0 < availableColors.length then
      availableColors.getD (jsFloorN (o.splitColorU * availableColors.length)) "#4a90a4"
    else
      TRIBE_COLORS.getD (jsFloorN (o.splitColorU * TRIBE_COLORS.length)) "#4a90a4"
  let newTribe : Tribe :=
    { id := o.splitTribeId
      color := newColor
      food := ((⌊tribe.food * 0.3⌋ : ℤ) : ℚ)
      wood := ((⌊tribe.wood * 0.3⌋ : ℤ) : ℚ)
      stone := ((⌊tribe.stone * 0.3⌋ : ℤ) : ℚ)
      techPoints := ((⌊tribe.techPoints * 0.2⌋ : ℤ) : ℚ)
      centerX := ((jsRound newCenter.1 : ℤ) : ℚ)
      centerY := ((jsRound newCenter.2 : ℤ) : ℚ)
      territoryRadius := 150
      priorityFarming := tribe.priorityFarming
      priorityBuilding := tribe.priorityBuilding
      priorityResearch := tribe.priorityResearch
      priorityGathering := tribe.priorityGathering
      priorityDefense := tribe.priorityDefense
      isPlayerTribe := false
      foundedTick := state.gameTick }
  let tribes := modifyFirst (fun t => t.id == tribe.id)
    (fun t => { t with food := t.food - newTribe.food,
                       wood := t.wood - newTribe.wood,
                       stone := t.stone - newTribe.stone }) tribes
  let tribes := tribes ++ [newTribe]
  let vs := splitters.foldl
    (fun acc s => modifyFirst (fun w => w.id == s.id)
      (fun w => { w with tribeId := newTribe.id,
                         posX := newCenter.1 + ((o.splitOff s.id).1 - 0.5) * 60,
                         posY := newCenter.2 + ((o.splitOff s.id).2 - 0.5) * 60 }) acc)
    vs
  (tribes, vs)

/-- The tribe-splitting subsystem (lines 423-507): scan the tribes in
  order, split at the first one whose population and roll qualify, at most
  one split per tick; returns the updated lastSplitTick counter. -/
def splitPhase (state : GameState) (lastSplitTick : ℕ) (o : TickOracle)
    (tribes : List Tribe) (vs : List Villager) :
    List Tribe × List Villager × ℕ :=
  if state.tribeSplittingEnabled ∧
     MIN_SPLIT_INTERVAL < (state.gameTick : ℤ) - (lastSplitTick : ℤ) then
    match tribes.find? (fun t =>
        decide (MIN_POP_FOR_SPLIT ≤ (livingOf vs t.id).length) &&
        decide (o.splitRoll t.id < SPLIT_CHANCE_PER_TICK)) with
    | none => (tribes, vs, lastSplitTick)
    | some tribe =>
      let r := applySplit state o tribes vs tribe
      (r.1, r.2, state.gameTick)
  else (tribes, vs, lastSplitTick)

-- === RANDOM WORLD EVENTS (lines 509-559) ===

/-- The candidate event categories of line 511. -/
def eventTypes : List EvType :=
  [EvType.wildAnimal, EvType.disease, EvType.blessing]

/-- The random-events subsystem (lines 509-559).  The source indexes
  newTribes at a random position without an emptiness guard; on an empty
  tribe list the member access on undefined throws, modelled as none. -/
def eventsPhase (state : GameState) (o : TickOracle) (tribes : List Tribe)
    (events : List WorldEvent) : Option (List Tribe × List WorldEvent) :=
  if state.randomEventsEnabled ∧ o.evRoll < RANDOM_EVENT_CHANCE then
    let eventType := eventTypes.getD (jsFloorN (o.evTypeU * 3)) EvType.wildAnimal
    match tribes.get? (jsFloorN (o.evTribeU * tribes.length)) with
    | none => none
    | some targetTribe =>
      let eventX := targetTribe.centerX + (o.evOffXU - 0.5) * targetTribe.territoryRadius * 2
      let eventY := targetTribe.centerY + (o.evOffYU - 0.5) * targetTribe.territoryRadius * 2
      if eventType = EvType.blessing then
        some (modifyFirst (fun t => t.id == targetTribe.id)
                (fun t => { t with food := t.food + (30 + o.evAmtU * 50) }) tribes,
              events)
      else
        let newEvent : WorldEvent :=
          { id := o.evId
            type := eventType
            posX := ((jsRound (clamp eventX 50 (MAP_WIDTH - 50)) : ℤ) : ℚ)
            posY := ((jsRound (clamp eventY 50 (MAP_HEIGHT - 50)) : ℤ) : ℚ)
            radius := 50 + ((⌊o.evRadiusU * 50⌋ : ℤ) : ℚ)
            severity := 1 + jsFloorN (o.evSeverityU * 3)
            duration := 200 + ⌊o.evDurationU * 300⌋
            affectedTribeId := none }
        some (tribes, events ++ [newEvent])
  else some (tribes, events)

-- === TICK ORCHESTRATION (advanceGameTick, lines 127-580) ===

/-- The result record of one tick.  The cooldown counters, process-wide
  mutable globals in the source, are threaded through explicitly as the
  design notes of the specification recommend. -/
structure TickResult where
  newState : GameState
  newTribes : List Tribe
  newVillagers : List Villager
  newEvents : List WorldEvent
  lastImmigrationTick : ℕ
  lastSplitTick : ℕ
deriving DecidableEq

/-- The per-tick world-advancement function (advanceGameTick).  Returns
  none exactly where the source would throw (the unguarded random tribe
  index of the random-events subsystem). -/
def advanceGameTick (currentState : GameState) (currentTribes : List Tribe)
    (currentVillagers : List Villager) (currentEvents : List WorldEvent)
    (lastImmigrationTick lastSplitTick : ℕ) (o : TickOracle) :
    Option TickResult :=
  let newState := { currentState with gameTick := currentState.gameTick + 1 }
  let newVillagers := currentVillagers.filter (fun v => !v.isDead)
  let dangers := dangersFrom currentEvents
  let p := processAllTribes dangers o.vo currentTribes newVillagers
  let im := immigrationPhase newState lastImmigrationTick o p.1 p.2
  let sp := splitPhase newState lastSplitTick o p.1 im.1
  match eventsPhase newState o sp.1 currentEvents with
  | none => none
  | some te =>
    let newEvents := (te.2.map (fun e => { e with duration := e.duration - 1 })).filter
      (fun e => 0 < e.duration)
    let finalVillagers := sp.2.1.filter (fun v => !v.isDead)
    let tribesWithPop := finalVillagers.map Villager.tribeId
    let finalTribes := te.1.filter
      (fun t => tribesWithPop.contains t.id || t.isPlayerTribe)
    some { newState := newState
           newTribes := finalTribes
           newVillagers := finalVillagers
           newEvents := newEvents
           lastImmigrationTick := im.2
           lastSplitTick := sp.2.2 }

-- === SPEC-MODELLED COMPARISON DEFINITIONS ===

/-- Modelled from the spec: the task-selection sentence of 4.3 rule 4
  describes drawing a uniform random value over the SUM of the four
  work-priority weights and selecting by cumulative bands in the order
  farming, building, gathering, research.  This definition follows the
  words of the spec, for comparison with pickIdleTask above. -/
def pickIdleTaskSpec (t : Tribe) (u : ℚ) : Action :=
  let total := t.priorityFarming + t.priorityBuilding + t.priorityGathering +
    t.priorityResearch
  let roll := u * total
  if roll < t.priorityFarming then Action.farming
  else if roll < t.priorityFarming + t.priorityBuilding then Action.building
  else if roll < t.priorityFarming + t.priorityBuilding + t.priorityGathering then
    Action.gathering
  else Action.research

-- === CONCRETE FIXTURES ===

/-- A baseline tribe record for fixtures. -/
def baseTribe : Tribe where
  id := 1
  color := "#4a90a4"
  food := 0
  wood := 0
  stone := 0
  techPoints := 0
  centerX := 400
  centerY := 300
  territoryRadius := 150
  priorityFarming := 5
  priorityBuilding := 5
  priorityResearch := 2
  priorityGathering := 5
  priorityDefense := 3
  isPlayerTribe := true
  foundedTick := 0

/-- A baseline villager record for fixtures. -/
def baseVillager : Villager where
  id := 1
  tribeId := 1
  age := 20
  health := 80
  energy := 80
  hunger := 20
  happiness := 80
  skillFarming := 0
  skillBuilding := 0
  skillResearch := 0
  skillGathering := 0
  skillHealing := 0
  skillCombat := 0
  action := Action.idle
  targetX := none
  targetY := none
  posX := 400
  posY := 300
  traits := []
  causeOfDeath := none
  isDead := false

/-- A baseline per-villager oracle: every draw 1/2, directions 0. -/
def baseVO : VOracle where
  starveRoll := 1/2
  noticeRoll := 1/2
  fleeDirX := 0
  fleeDirY := 0
  wildRoll := 1/2
  wildDmgU := 1/2
  diseaseRoll := 1/2
  diseaseDmgU := 1/2
  accRoll := 1/2
  accTypeU := 1/2
  accDmgU := 1/2
  sleepJXU := 1/2
  sleepJYU := 1/2
  taskU := 1/2
  farmU1 := 1/2
  farmU2 := 1/2
  moveDirX := 0
  moveDirY := 0
  finishRoll := 1/2
  wanderRoll := 1/2
  wanderU1 := 1/2
  wanderU2 := 1/2
  skillRoll := 1/2

/-- A baseline tick oracle: every draw 1/2, fresh ids in the 900s. -/
def baseTO : TickOracle where
  vo := fun _ => baseVO
  immRoll := 1/2
  immPickU := 1/2
  immId := 901
  immAgeU := 1/2
  immHealthU := 1/2
  immEnergyU := 1/2
  immHungerU := 1/2
  immHappinessU := 1/2
  immSkFarmU := 1/2
  immSkBuildU := 1/2
  immSkResU := 1/2
  immSkGathU := 1/2
  immSkHealU := 1/2
  immSkCombU := 1/2
  immSideU := 1/2
  immPosYU := 1/2
  immTraits := []
  splitRoll := fun _ => 1/2
  splitCountU := 1/2
  splitCands := fun _ => (1/2, 1/2)
  splitTribeId := 902
  splitColorU := 1/2
  splitOff := fun _ => (1/2, 1/2)
  evRoll := 1/2
  evTypeU := 1/2
  evTribeU := 1/2
  evOffXU := 1/2
  evOffYU := 1/2
  evAmtU := 1/2
  evRadiusU := 1/2
  evSeverityU := 1/2
  evDurationU := 1/2
  evId := 903

-- === CLAIM C5 ===

/-- A tribe whose entire priority weight sits on farming. -/
def tribeC5 : Tribe :=
  { baseTribe with priorityFarming := 10, priorityBuilding := 0,
                   priorityResearch := 0, priorityGathering := 0 }

/-- Claim C5 counterexample: with priorities (farming 10, building 0,
  gathering 0, research 0) and the draw u = 2/3, the code selects research
  (its roll ranges over the fixed total 30), while the selection the claim
  describes (a roll over the sum of the four weights) selects farming. -/
theorem pickIdleTask_ne_spec :
    pickIdleTask tribeC5 (2/3) = Action.research ∧
    pickIdleTaskSpec tribeC5 (2/3) = Action.farming := by
  constructor <;> norm_num [pickIdleTask, pickIdleTaskSpec, tribeC5, baseTribe]

/-- Claim C5 (amended): the idle task is chosen by a uniform draw over the
  FIXED range 30, not over the sum of the priorities: with roll = u * 30,
  farming is selected iff roll < priorityFarming, building iff the roll
  falls in the next cumulative band, gathering in the following band, and
  research takes all of the remaining range. -/
theorem pickIdleTask_bands (t : Tribe) (u : ℚ)
    (hb : 0 ≤ t.priorityBuilding) (hg : 0 ≤ t.priorityGathering) :
    (pickIdleTask t u = Action.farming ↔ u * 30 < t.priorityFarming) ∧
    (pickIdleTask t u = Action.building ↔
      t.priorityFarming ≤ u * 30 ∧
      u * 30 < t.priorityFarming + t.priorityBuilding) ∧
    (pickIdleTask t u = Action.gathering ↔
      t.priorityFarming + t.priorityBuilding ≤ u * 30 ∧
      u * 30 < t.priorityFarming + t.priorityBuilding + t.priorityGathering) ∧
    (pickIdleTask t u = Action.research ↔
      t.priorityFarming + t.priorityBuilding + t.priorityGathering ≤ u * 30) := by
  unfold pickIdleTask
  dsimp only
  split_ifs with h1 h2 h3
  · exact ⟨iff_of_true rfl h1,
      iff_of_false (by decide) (by rintro ⟨ha, -⟩; linarith),
      iff_of_false (by decide) (by rintro ⟨ha, -⟩; linarith),
      iff_of_false (by decide) (fun h => by linarith)⟩
  · push_neg at h1
    exact ⟨iff_of_false (by decide) (fun h => by linarith),
      iff_of_true rfl ⟨h1, h2⟩,
      iff_of_false (by decide) (by rintro ⟨ha, -⟩; linarith),
      iff_of_false (by decide) (fun h => by linarith)⟩
  · push_neg at h1 h2
    exact ⟨iff_of_false (by decide) (fun h => by linarith),
      iff_of_false (by decide) (by rintro ⟨-, hx⟩; linarith),
      iff_of_true rfl ⟨h2, h3⟩,
      iff_of_false (by decide) (fun h => by linarith)⟩
  · push_neg at h1 h2 h3
    exact ⟨iff_of_false (by decide) (fun h => by linarith),
      iff_of_false (by decide) (by rintro ⟨-, hx⟩; linarith),
      iff_of_false (by decide) (by rintro ⟨-, hx⟩; linarith),
      iff_of_true rfl h3⟩

/-- Claim C5 witness: the band characterization applied at the baseline
  tribe (priorities 5, 5, 5 and research 2) and the draw 1/2. -/
theorem pickIdleTask_bands_witness :
    (pickIdleTask baseTribe (1/2) = Action.farming ↔
      (1/2 : ℚ) * 30 < baseTribe.priorityFarming) ∧
    (pickIdleTask baseTribe (1/2) = Action.building ↔
      baseTribe.priorityFarming ≤ (1/2 : ℚ) * 30 ∧
      (1/2 : ℚ) * 30 < baseTribe.priorityFarming + baseTribe.priorityBuilding) ∧
    (pickIdleTask baseTribe (1/2) = Action.gathering ↔
      baseTribe.priorityFarming + baseTribe.priorityBuilding ≤ (1/2 : ℚ) * 30 ∧
      (1/2 : ℚ) * 30 < baseTribe.priorityFarming + baseTribe.priorityBuilding +
        baseTribe.priorityGathering) ∧
    (pickIdleTask baseTribe (1/2) = Action.research ↔
      baseTribe.priorityFarming + baseTribe.priorityBuilding +
        baseTribe.priorityGathering ≤ (1/2 : ℚ) * 30) :=
  pickIdleTask_bands baseTribe (1/2)
    (by norm_num [baseTribe]) (by norm_num [baseTribe])

-- === CLAIM C6 ===

/-- A villager who is simultaneously over the hunger emergency threshold
  and under the energy exhaustion threshold. -/
def villC6 : Villager :=
  { baseVillager with hunger := 70, energy := 10 }

/-- A tribe with food in stock. -/
def tribeC6 : Tribe :=
  { baseTribe with food := 10 }

/-- Claim C6 counterexample: hunger 70 (> 65), tribe food 10 (> 0), action
  idle (not eating), energy 10 (< 15): the claim says rule 1 makes the
  action eating and rule 2 does not apply, but the code leaves the villager
  sleeping, because the sleep rule is an independent if that runs after the
  eat rule and overrides it. -/
theorem decideAction_sleep_overrides_eat :
    (decideAction tribeC6 villC6 baseVO).action = Action.sleeping ∧
    (decideAction tribeC6 villC6 baseVO).action ≠ Action.eating := by
  have h1 : (65 : ℚ) < 70 := by norm_num
  have h2 : (0 : ℚ) < 10 := by norm_num
  have h3 : (10 : ℚ) < 15 := by norm_num
  simp [decideAction, assignTask, optTruthy, villC6, tribeC6, baseVillager,
    baseTribe, baseVO, h1, h2, h3]

/-- Claim C6 (amended): rule 1 fires as described (hunger over 65, food in
  stock, not already eating, sets eating with target the tribe center), but
  rule 2 is an independent if evaluated after it, not an else-if: when the
  energy is also below 15 the sleep rule overrides the fresh eating
  assignment and the villager ends the decision step sleeping. -/
theorem decideAction_rule_order (t : Tribe) (v : Villager) (o : VOracle)
    (h1 : 65 < v.hunger) (h2 : v.action ≠ Action.eating) (h3 : 0 < t.food) :
    (v.energy < 15 → (decideAction t v o).action = Action.sleeping) ∧
    (¬ v.energy < 15 → (decideAction t v o).action = Action.eating ∧
      (decideAction t v o).targetX = some t.centerX ∧
      (decideAction t v o).targetY = some t.centerY) := by
  have hc : 65 < v.hunger ∧ v.action ≠ Action.eating ∧ 0 < t.food := ⟨h1, h2, h3⟩
  constructor
  · intro he
    simp only [decideAction]
    rw [if_pos hc]
    split_ifs with hB hC hD <;> simp_all
  · intro he
    simp only [decideAction]
    rw [if_pos hc]
    split_ifs with hB hC hD <;> simp_all

/-- Claim C6 witness: the amended rule-order theorem applied at the
  concrete fixture. -/
theorem decideAction_rule_order_witness :
    (villC6.energy < 15 →
      (decideAction tribeC6 villC6 baseVO).action = Action.sleeping) ∧
    (¬ villC6.energy < 15 →
      (decideAction tribeC6 villC6 baseVO).action = Action.eating ∧
      (decideAction tribeC6 villC6 baseVO).targetX = some tribeC6.centerX ∧
      (decideAction tribeC6 villC6 baseVO).targetY = some tribeC6.centerY) :=
  decideAction_rule_order tribeC6 villC6 baseVO
    (by norm_num [villC6, baseVillager])
    (by decide)
    (by norm_num [tribeC6, baseTribe])

-- === EVALUATION HELPERS ===

/-- Numeric index of an action constructor, used to let the numeric
  evaluator resolve action equalities in concrete runs. -/
def actionIdx : Action → ℕ
  | Action.idle => 0
  | Action.farming => 1
  | Action.building => 2
  | Action.gathering => 3
  | Action.research => 4
  | Action.eating => 5
  | Action.sleeping => 6
  | Action.fleeing => 7

theorem action_eq_iff (a b : Action) : a = b ↔ actionIdx a = actionIdx b := by
  cases a <;> cases b <;> decide

/-- Numeric index of an event-type constructor. -/
def evTypeIdx : EvType → ℕ
  | EvType.wildAnimal => 0
  | EvType.disease => 1
  | EvType.fire => 2
  | EvType.storm => 3
  | EvType.blessing => 4

theorem evType_eq_iff (a b : EvType) : a = b ↔ evTypeIdx a = evTypeIdx b := by
  cases a <;> cases b <;> decide

-- === CLAIM C7 ===

/-- Game state with every optional subsystem disabled, tick 0. -/
def stC7 : GameState where
  gameTick := 0
  immigrationEnabled := false
  tribeSplittingEnabled := false
  randomEventsEnabled := false

/-- A tribe with 10 food. -/
def tribeC7 : Tribe := { baseTribe with food := 10 }

/-- A lone villager entering the tick with hunger 94, health 50, away from
  the tribe center. -/
def villC7 : Villager :=
  { baseVillager with id := 7, hunger := 94, health := 50, posX := 100, posY := 100 }

/-- The C7 villager after vital decay: hunger 94.04, energy 79.975. -/
def villC7a : Villager :=
  { villC7 with hunger := 2351/25, energy := 3199/40 }

/-- The C7 villager after the decision step: sent to eat at the tribe
  center. -/
def villC7b : Villager :=
  { villC7a with action := Action.eating, targetX := some 400, targetY := some 300 }

theorem villC7_vitals : vitalsStage villC7 baseVO = villC7a := by
  norm_num [vitalsStage, villC7, villC7a, baseVillager, baseVO, HUNGER_RATE,
    ENERGY_RATE, STARVATION_THRESHOLD, min_def, max_def, action_eq_iff,
    actionIdx]

theorem villC7a_danger : dangerStage [] villC7a baseVO = villC7a := by
  simp [dangerStage, List.find?]

theorem villC7a_accident : accidentStage villC7a baseVO = villC7a := by
  norm_num [accidentStage, ACCIDENT_CHANCE, baseVO]

theorem villC7a_decide : decideAction tribeC7 villC7a baseVO = villC7b := by
  norm_num [decideAction, villC7a, villC7b, villC7, baseVillager, baseVO,
    tribeC7, baseTribe, action_eq_iff, actionIdx]

theorem villC7b_move : movementStage tribeC7 villC7b baseVO = (villC7b, tribeC7) := by
  norm_num [movementStage, villC7b, villC7a, villC7, baseVillager, baseVO,
    tribeC7, baseTribe, dist2, clamp, MOVEMENT_SPEED, MAP_WIDTH, MAP_HEIGHT,
    min_def, max_def, action_eq_iff, actionIdx]

theorem villC7_step :
    stepVillager [] tribeC7 villC7 baseVO = (villC7b, tribeC7) := by
  have hd1 : villC7a.isDead = false := rfl
  have hd2 : villC7b.isDead = false := rfl
  simp [stepVillager, villC7_vitals, villC7a_danger, villC7a_accident,
    villC7a_decide, villC7b_move, hd1, hd2]

/-- The C7 game state after the tick counter advance. -/
def stC7b : GameState where
  gameTick := 1
  immigrationEnabled := false
  tribeSplittingEnabled := false
  randomEventsEnabled := false

/-- The full C7 tick output. -/
def outC7 : TickResult where
  newState := stC7b
  newTribes := [tribeC7]
  newVillagers := [villC7b]
  newEvents := []
  lastImmigrationTick := 0
  lastSplitTick := 0

/-- Full evaluation of one tick of the C7 scenario. -/
theorem tickC7_full :
    advanceGameTick stC7 [tribeC7] [villC7] [] 0 0 baseTO = some outC7 := by
  have hvo : baseTO.vo villC7.id = baseVO := rfl
  have hlive : livingOf [villC7] tribeC7.id = [villC7] := rfl
  have hpt : processTribeVillagers [] baseTO.vo [villC7] tribeC7 [villC7] =
      (tribeC7, [villC7b]) := by
    rw [processTribeVillagers, hvo, villC7_step]
    simp only [processTribeVillagers]
    norm_num [updateById, modifyFirst, show villC7b.isDead = false from rfl,
      show (villC7.id == villC7b.id) = true from rfl]
  have hall : processAllTribes [] baseTO.vo [tribeC7] [villC7] =
      ([tribeC7], [villC7b]) := by
    simp only [processAllTribes, processOneTribe, hlive, hpt]
  have hstate : { stC7 with gameTick := stC7.gameTick + 1 } = stC7b := rfl
  have himm : ∀ vs, immigrationPhase stC7b 0 baseTO [tribeC7] vs = (vs, 0) := by
    intro vs
    simp [immigrationPhase, show stC7b.immigrationEnabled = false from rfl]
  have hsplit : ∀ vs, splitPhase stC7b 0 baseTO [tribeC7] vs =
      ([tribeC7], vs, 0) := by
    intro vs
    simp [splitPhase, show stC7b.tribeSplittingEnabled = false from rfl]
  have hev : eventsPhase stC7b baseTO [tribeC7] [] = some ([tribeC7], []) := by
    simp [eventsPhase, show stC7b.randomEventsEnabled = false from rfl]
  have hfilt : [villC7].filter (fun v => !v.isDead) = [villC7] := rfl
  simp only [advanceGameTick, hstate, dangersFrom, List.filter_nil,
    List.map_nil, hfilt, hall, himm, hsplit, hev]
  simp [outC7, show villC7b.isDead = false from rfl,
    show ([villC7b.tribeId].contains tribeC7.id || tribeC7.isPlayerTribe) = true from rfl]
  exact Or.inl rfl

/-- Evaluation of one tick of the C7 scenario: the villager ends the tick
  with hunger 94.04 and health 50. -/
theorem tickC7_eval :
    (advanceGameTick stC7 [tribeC7] [villC7] [] 0 0 baseTO).map
      (fun r => r.newVillagers.map (fun v => (v.hunger, v.health))) =
      some [(9404/100, 50)] := by
  rw [tickC7_full]
  norm_num [outC7, villC7b, villC7a, villC7, baseVillager]

/-- Claim C7 counterexample: in the stated scenario (lone villager,
  hunger 94, tribe food 10, HUNGER_RATE 0.04) one tick leaves hunger at
  94.04, not 98, and leaves health unchanged rather than reduced by the
  starvation decrement. -/
theorem tickC7_refutes_claim :
    (advanceGameTick stC7 [tribeC7] [villC7] [] 0 0 baseTO).map
      (fun r => r.newVillagers.map (fun v => (v.hunger, v.health))) =
      some [(9404/100, 50)] ∧
    (9404/100 : ℚ) ≠ 98 ∧ (50 : ℚ) ≠ 50 - 0.15 :=
  ⟨tickC7_eval, by norm_num, by norm_num⟩

/-- Claim C7 (amended): with HUNGER_RATE = 0.04 the villager of the
  scenario ends the tick with hunger 94.04, which is below the starvation
  threshold 95, and with health unchanged at 50. -/
theorem tickC7_below_threshold :
    (advanceGameTick stC7 [tribeC7] [villC7] [] 0 0 baseTO).map
      (fun r => r.newVillagers.map (fun v => (v.hunger, v.health))) =
      some [(9404/100, 50)] ∧
    (9404/100 : ℚ) < STARVATION_THRESHOLD :=
  ⟨tickC7_eval, by norm_num [STARVATION_THRESHOLD]⟩

-- === CLAIM C2 ===

/-- Game state with every optional subsystem disabled, tick 0. -/
def stC2 : GameState where
  gameTick := 0
  immigrationEnabled := false
  tribeSplittingEnabled := false
  randomEventsEnabled := false

/-- The C2 game state after the tick counter advance. -/
def stC2b : GameState where
  gameTick := 1
  immigrationEnabled := false
  tribeSplittingEnabled := false
  randomEventsEnabled := false

/-- A tribe with no food. -/
def tribeC2 : Tribe := baseTribe

/-- A villager entering the tick starving (hunger 96) on 0.1 health, so
  that the starvation branch kills it deterministically this tick. -/
def villC2 : Villager :=
  { baseVillager with id := 2, hunger := 96, health := 1/10 }

/-- The processed copy of the C2 villager: marked dead by starvation. -/
def villC2a : Villager :=
  { villC2 with hunger := 2401/25, energy := 3199/40, health := 0,
                isDead := true, causeOfDeath := some "starvation" }

theorem villC2_vitals : vitalsStage villC2 baseVO = villC2a := by
  norm_num [vitalsStage, villC2, villC2a, baseVillager, baseVO, HUNGER_RATE,
    ENERGY_RATE, STARVATION_THRESHOLD, DEATH_FROM_STARVATION_CHANCE, min_def,
    max_def, action_eq_iff, actionIdx]

theorem villC2_step :
    stepVillager [] tribeC2 villC2 baseVO = (villC2a, tribeC2) := by
  simp [stepVillager, villC2_vitals, show villC2a.isDead = true from rfl]

/-- Claim C2: the villager is marked dead by this tick (its processed copy
  has isDead = true and the starvation cause), yet the villager list
  returned by advanceGameTick still contains it, alive-flagged and
  untouched, because the death branch ends in a continue that skips the
  write-back of the processed copy. -/
theorem tick_keeps_villager_that_died :
    (stepVillager [] tribeC2 villC2 baseVO).1.isDead = true ∧
    (stepVillager [] tribeC2 villC2 baseVO).1.causeOfDeath = some "starvation" ∧
    (advanceGameTick stC2 [tribeC2] [villC2] [] 0 0 baseTO).map
      (fun r => r.newVillagers) = some [villC2] ∧
    villC2.isDead = false := by
  refine ⟨by simp [villC2_step]; rfl, by simp [villC2_step]; rfl, ?_, rfl⟩
  have hvo : baseTO.vo villC2.id = baseVO := rfl
  have hlive : livingOf [villC2] tribeC2.id = [villC2] := rfl
  have hpt : processTribeVillagers [] baseTO.vo [villC2] tribeC2 [villC2] =
      (tribeC2, [villC2]) := by
    rw [processTribeVillagers, hvo, villC2_step]
    simp only [processTribeVillagers]
    norm_num [show villC2a.isDead = true from rfl]
  have hall : processAllTribes [] baseTO.vo [tribeC2] [villC2] =
      ([tribeC2], [villC2]) := by
    simp only [processAllTribes, processOneTribe, hlive, hpt]
  have hstate : { stC2 with gameTick := stC2.gameTick + 1 } = stC2b := rfl
  have himm : ∀ vs, immigrationPhase stC2b 0 baseTO [tribeC2] vs = (vs, 0) := by
    intro vs
    simp [immigrationPhase, show stC2b.immigrationEnabled = false from rfl]
  have hsplit : ∀ vs, splitPhase stC2b 0 baseTO [tribeC2] vs =
      ([tribeC2], vs, 0) := by
    intro vs
    simp [splitPhase, show stC2b.tribeSplittingEnabled = false from rfl]
  have hev : eventsPhase stC2b baseTO [tribeC2] [] = some ([tribeC2], []) := by
    simp [eventsPhase, show stC2b.randomEventsEnabled = false from rfl]
  have hfilt : [villC2].filter (fun v => !v.isDead) = [villC2] := rfl
  simp only [advanceGameTick, hstate, dangersFrom, List.filter_nil,
    List.map_nil, hfilt, hall, himm, hsplit, hev]
  simp [show ([villC2.tribeId].contains tribeC2.id || tribeC2.isPlayerTribe) = true from rfl]

-- === CLAIM C9 ===

/-- Game state with only the random-events subsystem enabled. -/
def stC9 : GameState where
  gameTick := 0
  immigrationEnabled := false
  tribeSplittingEnabled := false
  randomEventsEnabled := true

/-- The C9 game state after the tick counter advance. -/
def stC9b : GameState where
  gameTick := 1
  immigrationEnabled := false
  tribeSplittingEnabled := false
  randomEventsEnabled := true

/-- A tick oracle whose random-event roll passes. -/
def oC9 : TickOracle := { baseTO with evRoll := 0 }

/-- Claim C9: with zero tribes and the random-events roll passing, the tick
  faults (the source indexes newTribes on an empty array and dereferences
  undefined), modelled as the none result; the claim says the call should
  skip the subsystem and return normally. -/
theorem tick_faults_on_zero_tribes :
    advanceGameTick stC9 [] [] [] 0 0 oC9 = none := by
  have hall : processAllTribes [] oC9.vo [] [] = ([], []) := rfl
  have hstate : { stC9 with gameTick := stC9.gameTick + 1 } = stC9b := rfl
  have himm : immigrationPhase stC9b 0 oC9 [] [] = ([], 0) := by
    simp [immigrationPhase, show stC9b.immigrationEnabled = false from rfl]
  have hsplit : splitPhase stC9b 0 oC9 [] [] = ([], [], 0) := by
    simp [splitPhase, show stC9b.tribeSplittingEnabled = false from rfl]
  have hev : eventsPhase stC9b oC9 [] [] = none := by
    norm_num [eventsPhase, show stC9b.randomEventsEnabled = true from rfl,
      show oC9.evRoll = 0 from rfl, RANDOM_EVENT_CHANCE]
  simp only [advanceGameTick, hstate, dangersFrom, List.filter_nil,
    List.map_nil, hall, himm, hsplit, hev]

-- === CLAIM C3 ===

/-- modifyFirst hits the first element satisfying the predicate and leaves
  everything else in place. -/
theorem modifyFirst_append (p : α → Bool) (f : α → α) (l1 : List α) (a : α)
    (l2 : List α) (h : ∀ x ∈ l1, p x = false) (ha : p a = true) :
    modifyFirst p f (l1 ++ a :: l2) = l1 ++ f a :: l2 := by
  induction l1 with
  | nil => simp [modifyFirst, ha]
  | cons b bs ih =>
    have hb : p b = false := h b (by simp)
    simp only [List.cons_append, modifyFirst, hb, Bool.false_eq_true,
      if_false, List.append_eq]
    rw [ih (fun x hx => h x (by simp [hx]))]

/-- Claim C3 (amended): a split to the new tribe transfers exactly
  floor(30 percent) of food, wood and stone and floor(20 percent) of tech
  points of the source tribe, and the source tribe is debited by exactly
  the transferred food, wood and stone, while its techPoints field is NOT
  debited (the transferred tech points are duplicated, not moved). -/
theorem applySplit_resource_transfer (state : GameState) (o : TickOracle)
    (vs : List Villager) (l1 l2 : List Tribe) (tribe : Tribe)
    (hfirst : ∀ t ∈ l1, (t.id == tribe.id) = false) :
    ((applySplit state o (l1 ++ tribe :: l2) vs tribe).1.getLast?).map
        (fun t => (t.food, t.wood, t.stone, t.techPoints)) =
      some (((⌊tribe.food * 0.3⌋ : ℤ) : ℚ), ((⌊tribe.wood * 0.3⌋ : ℤ) : ℚ),
            ((⌊tribe.stone * 0.3⌋ : ℤ) : ℚ),
            ((⌊tribe.techPoints * 0.2⌋ : ℤ) : ℚ)) ∧
    (applySplit state o (l1 ++ tribe :: l2) vs tribe).1.get? l1.length =
      some { tribe with
               food := tribe.food - ((⌊tribe.food * 0.3⌋ : ℤ) : ℚ),
               wood := tribe.wood - ((⌊tribe.wood * 0.3⌋ : ℤ) : ℚ),
               stone := tribe.stone - ((⌊tribe.stone * 0.3⌋ : ℤ) : ℚ) } := by
  have ha : (tribe.id == tribe.id) = true := by simp
  unfold applySplit
  simp only [modifyFirst_append _ _ l1 tribe l2 hfirst ha]
  constructor
  · rw [List.getLast?_concat]
    simp
  · rw [List.append_assoc, List.cons_append]
    rw [List.get?_append_right (le_refl l1.length)]
    simp

/-- Claim C3 amended-theorem witness: the transfer equations applied to a
  singleton tribe list. -/
theorem applySplit_resource_transfer_witness :
    ((applySplit stC2 baseTO ([] ++ baseTribe :: []) [] baseTribe).1.getLast?).map
        (fun t => (t.food, t.wood, t.stone, t.techPoints)) =
      some (((⌊baseTribe.food * 0.3⌋ : ℤ) : ℚ), ((⌊baseTribe.wood * 0.3⌋ : ℤ) : ℚ),
            ((⌊baseTribe.stone * 0.3⌋ : ℤ) : ℚ),
            ((⌊baseTribe.techPoints * 0.2⌋ : ℤ) : ℚ)) ∧
    (applySplit stC2 baseTO ([] ++ baseTribe :: []) [] baseTribe).1.get? ([] : List Tribe).length =
      some { baseTribe with
               food := baseTribe.food - ((⌊baseTribe.food * 0.3⌋ : ℤ) : ℚ),
               wood := baseTribe.wood - ((⌊baseTribe.wood * 0.3⌋ : ℤ) : ℚ),
               stone := baseTribe.stone - ((⌊baseTribe.stone * 0.3⌋ : ℤ) : ℚ) } :=
  applySplit_resource_transfer stC2 baseTO [] [] [] baseTribe (by simp)

/-- Game state with only tribe splitting enabled, one tick before 6000 so
  the split cooldown window (> 5000 since tick 0) is open. -/
def stC3 : GameState where
  gameTick := 5999
  immigrationEnabled := false
  tribeSplittingEnabled := true
  randomEventsEnabled := false

/-- The C3 game state after the tick counter advance. -/
def stC3b : GameState where
  gameTick := 6000
  immigrationEnabled := false
  tribeSplittingEnabled := true
  randomEventsEnabled := false

/-- The C3 source tribe: 10 tech points and empty material stockpiles. -/
def tribeC3 : Tribe := { baseTribe with techPoints := 10 }

/-- The C3 villagers: eight sleeping members of the tribe. -/
def villC3 (i : ℕ) : Villager :=
  { baseVillager with id := i, action := Action.sleeping }

/-- A C3 villager after its tick processing (vital decay plus sleep
  recovery; no work, no movement). -/
def villC3a (i : ℕ) : Villager :=
  { villC3 i with hunger := 501/25, energy := 3223/40, health := 1603/20 }

/-- The C3 roster before the tick. -/
def vsC3 : List Villager :=
  [villC3 11, villC3 12, villC3 13, villC3 14,
   villC3 15, villC3 16, villC3 17, villC3 18]

/-- The C3 roster after per-villager processing. -/
def vsC3a : List Villager :=
  [villC3a 11, villC3a 12, villC3a 13, villC3a 14,
   villC3a 15, villC3a 16, villC3a 17, villC3a 18]

/-- The C3 oracle: the split roll always passes, the split count draw is 0
  (two splitters). -/
def oC3 : TickOracle :=
  { baseTO with splitRoll := fun _ => 0, splitCountU := 0 }

theorem villC3_step (i : ℕ) :
    stepVillager [] tribeC3 (villC3 i) baseVO = (villC3a i, tribeC3) := by
  have hv : vitalsStage (villC3 i) baseVO = villC3a i := by
    norm_num [vitalsStage, villC3, villC3a, baseVillager, baseVO, HUNGER_RATE,
      ENERGY_RATE, STARVATION_THRESHOLD, HEALING_RATE, min_def, max_def,
      action_eq_iff, actionIdx]
  have hd : dangerStage [] (villC3a i) baseVO = villC3a i := by
    simp [dangerStage, List.find?]
  have hacc : accidentStage (villC3a i) baseVO = villC3a i := by
    norm_num [accidentStage, ACCIDENT_CHANCE, baseVO]
  have hdec : decideAction tribeC3 (villC3a i) baseVO = villC3a i := by
    norm_num [decideAction, villC3a, villC3, baseVillager, baseVO, tribeC3,
      baseTribe, action_eq_iff, actionIdx]
  have hm : movementStage tribeC3 (villC3a i) baseVO = (villC3a i, tribeC3) := by
    norm_num [movementStage, villC3a, villC3, baseVillager, baseVO]
  simp [stepVillager, hv, hd, hacc, hdec, hm,
    show ∀ j, (villC3a j).isDead = false from fun _ => rfl]

theorem tickC3_process :
    processAllTribes [] oC3.vo [tribeC3] vsC3 = ([tribeC3], vsC3a) := by
  have hvo : ∀ j, oC3.vo j = baseVO := fun _ => rfl
  have hid1 : ∀ j, (villC3 j).id = j := fun _ => rfl
  have hid2 : ∀ j, (villC3a j).id = j := fun _ => rfl
  have hdead : ∀ j, (villC3a j).isDead = false := fun _ => rfl
  have hlive : livingOf vsC3 tribeC3.id = vsC3 := rfl
  simp only [processAllTribes, processOneTribe, hlive]
  simp [processTribeVillagers, updateById, modifyFirst, hvo, hid1, hid2,
    hdead, villC3_step, vsC3, vsC3a]

/-- The tribe created by the C3 split: it receives floor(10 * 0.2) = 2 tech
  points. -/
def newTribeC3 : Tribe where
  id := 902
  color := "#7a4aa4"
  food := 0
  wood := 0
  stone := 0
  techPoints := 2
  centerX := 1600
  centerY := 1200
  territoryRadius := 150
  priorityFarming := 5
  priorityBuilding := 5
  priorityResearch := 2
  priorityGathering := 5
  priorityDefense := 3
  isPlayerTribe := false
  foundedTick := 6000

/-- A C3 splitter relocated to the new tribe center. -/
def villC3b (i : ℕ) : Villager :=
  { villC3a i with tribeId := 902, posX := 1600, posY := 1200 }

/-- The C3 roster after the split relocated the first two villagers. -/
def vsC3out : List Villager :=
  [villC3b 11, villC3b 12, villC3a 13, villC3a 14,
   villC3a 15, villC3a 16, villC3a 17, villC3a 18]

theorem tickC3_center :
    findCenter [tribeC3] oC3.splitCands = (1600, 1200) := by
  rw [findCenter, show (29:ℕ) = 28+1 from rfl]
  simp only [findCenterGo]
  norm_num [tooClose, candCoords, dist2, tribeC3, baseTribe, MAP_WIDTH,
    MAP_HEIGHT, show oC3.splitCands 0 = (1/2, 1/2) from rfl]

theorem tickC3_apply :
    applySplit stC3b oC3 [tribeC3] vsC3a tribeC3 = ([tribeC3, newTribeC3], vsC3out) := by
  have hid2 : ∀ j, (villC3a j).id = j := fun _ => rfl
  have hoff : ∀ j, oC3.splitOff j = (1/2, 1/2) := fun _ => rfl
  have hlive : livingOf vsC3a tribeC3.id = vsC3a := rfl
  have hcount : 2 + jsFloorN (oC3.splitCountU * 2) = 2 := by
    norm_num [jsFloorN, show oC3.splitCountU = 0 from rfl]
  simp only [applySplit, hlive, hcount, tickC3_center]
  norm_num [vsC3a, vsC3out, villC3b, modifyFirst, jsFloorN, jsRound,
    Int.toNat_ofNat, hid2, hoff, TRIBE_COLORS, tribeC3, baseTribe,
    newTribeC3, stC3b,
    show oC3.splitColorU = 1/2 from rfl,
    show oC3.splitTribeId = 902 from rfl,
    show (decide (("#a44a4a" : String) = "#4a90a4")) = false from by decide,
    show (decide (("#4aa45a" : String) = "#4a90a4")) = false from by decide,
    show (decide (("#a4904a" : String) = "#4a90a4")) = false from by decide,
    show (decide (("#7a4aa4" : String) = "#4a90a4")) = false from by decide,
    show (decide (("#4aa4a4" : String) = "#4a90a4")) = false from by decide,
    show (decide (("#a4744a" : String) = "#4a90a4")) = false from by decide,
    show (decide (("#6a6a6a" : String) = "#4a90a4")) = false from by decide,
    show (3 : ℤ).toNat = 3 from rfl]

theorem tickC3_splitPhase :
    splitPhase stC3b 0 oC3 [tribeC3] vsC3a = ([tribeC3, newTribeC3], vsC3out, 6000) := by
  have hlive : livingOf vsC3a tribeC3.id = vsC3a := rfl
  have hpred : (fun t => decide (MIN_POP_FOR_SPLIT ≤ (livingOf vsC3a t.id).length) &&
      decide (oC3.splitRoll t.id < SPLIT_CHANCE_PER_TICK)) tribeC3 = true := by
    have h1 : (livingOf vsC3a tribeC3.id).length = 8 := rfl
    norm_num [h1, MIN_POP_FOR_SPLIT, SPLIT_CHANCE_PER_TICK,
      show ∀ j, oC3.splitRoll j = 0 from fun _ => rfl]
  have hfind : ([tribeC3].find? (fun t =>
      decide (MIN_POP_FOR_SPLIT ≤ (livingOf vsC3a t.id).length) &&
      decide (oC3.splitRoll t.id < SPLIT_CHANCE_PER_TICK))) = some tribeC3 :=
    List.find?_cons_of_pos _ hpred
  simp only [splitPhase, hfind, tickC3_apply]
  norm_num [stC3b, MIN_SPLIT_INTERVAL]

/-- Claim C3 counterexample: a tick in which a split occurs (population 8,
  roll passes) transfers floor(10 * 0.2) = 2 tech points to the new tribe
  but leaves the source tribe with all 10 tech points, not 10 - 2 = 8 as
  the claim requires. -/
theorem tickC3_refutes_claim :
    (advanceGameTick stC3 [tribeC3] vsC3 [] 0 0 oC3).map
      (fun r => r.newTribes.map (fun t => (t.id, t.techPoints))) =
      some [(1, 10), (902, 2)] ∧
    (10 : ℚ) ≠ 10 - 2 := by
  refine ⟨?_, by norm_num⟩
  have hstate : { stC3 with gameTick := stC3.gameTick + 1 } = stC3b := rfl
  have hfiltvs : vsC3.filter (fun v => !v.isDead) = vsC3 := rfl
  have himm : ∀ vs, immigrationPhase stC3b 0 oC3 [tribeC3] vs = (vs, 0) := by
    intro vs
    simp [immigrationPhase, show stC3b.immigrationEnabled = false from rfl]
  have hev : eventsPhase stC3b oC3 [tribeC3, newTribeC3] [] =
      some ([tribeC3, newTribeC3], []) := by
    simp [eventsPhase, show stC3b.randomEventsEnabled = false from rfl]
  have hfiltout : vsC3out.filter (fun v => !v.isDead) = vsC3out := rfl
  have hpop : vsC3out.map Villager.tribeId = [902, 902, 1, 1, 1, 1, 1, 1] := rfl
  have hkeep1 : (([902, 902, 1, 1, 1, 1, 1, 1].contains tribeC3.id) ||
      tribeC3.isPlayerTribe) = true := rfl
  have hkeep2 : (([902, 902, 1, 1, 1, 1, 1, 1].contains newTribeC3.id) ||
      newTribeC3.isPlayerTribe) = true := rfl
  simp only [advanceGameTick, hstate, dangersFrom, List.filter_nil,
    List.map_nil, hfiltvs, tickC3_process, himm, tickC3_splitPhase, hev,
    hfiltout, hpop, List.filter_cons, List.filter_nil, hkeep1, hkeep2,
    if_true]
  norm_num [tribeC3, baseTribe, newTribeC3]

-- === CLAIM C8 ===

/-- The random-events subsystem, when it returns at all, either leaves the
  event list unchanged or appends exactly one new event carrying the
  oracle-supplied id. -/
theorem eventsPhase_events (state : GameState) (o : TickOracle)
    (tribes tribes' : List Tribe) (events events' : List WorldEvent)
    (h : eventsPhase state o tribes events = some (tribes', events')) :
    events' = events ∨
    ∃ ev : WorldEvent, ev.id = o.evId ∧ events' = events ++ [ev] := by
  unfold eventsPhase at h
  split_ifs at h with h1
  · cases hg : tribes.get? (jsFloorN (o.evTribeU * tribes.length)) with
    | none => rw [hg] at h; exact absurd h (by simp)
    | some t =>
      rw [hg] at h
      dsimp only at h
      split_ifs at h with h2
      · left
        have := (Option.some.injEq _ _).mp h
        exact congrArg Prod.snd this |>.symm
      · right
        have := (Option.some.injEq _ _).mp h
        refine ⟨_, rfl, (congrArg Prod.snd this).symm⟩
  · left
    have := (Option.some.injEq _ _).mp h
    exact congrArg Prod.snd this |>.symm

/-- Deconstruction of a successful tick: the returned event list is the
  decrement-and-drop image of the event list produced by the random-events
  subsystem. -/
theorem advanceGameTick_newEvents (state : GameState) (tribes : List Tribe)
    (vs : List Villager) (events : List WorldEvent) (lI lS : ℕ)
    (o : TickOracle) (out : TickResult)
    (hout : advanceGameTick state tribes vs events lI lS o = some out) :
    ∃ te : List Tribe × List WorldEvent,
      eventsPhase { state with gameTick := state.gameTick + 1 } o
        (splitPhase { state with gameTick := state.gameTick + 1 } lS o
          (processAllTribes (dangersFrom events) o.vo tribes
            (vs.filter (fun v => !v.isDead))).1
          (immigrationPhase { state with gameTick := state.gameTick + 1 } lI o
            (processAllTribes (dangersFrom events) o.vo tribes
              (vs.filter (fun v => !v.isDead))).1
            (processAllTribes (dangersFrom events) o.vo tribes
              (vs.filter (fun v => !v.isDead))).2).1).1 events = some te ∧
      out.newEvents =
        (te.2.map (fun e => { e with duration := e.duration - 1 })).filter
          (fun e => 0 < e.duration) := by
  unfold advanceGameTick at hout
  dsimp only at hout
  cases hep : eventsPhase { state with gameTick := state.gameTick + 1 } o
      (splitPhase { state with gameTick := state.gameTick + 1 } lS o
        (processAllTribes (dangersFrom events) o.vo tribes
          (vs.filter (fun v => !v.isDead))).1
        (immigrationPhase { state with gameTick := state.gameTick + 1 } lI o
          (processAllTribes (dangersFrom events) o.vo tribes
            (vs.filter (fun v => !v.isDead))).1
          (processAllTribes (dangersFrom events) o.vo tribes
            (vs.filter (fun v => !v.isDead))).2).1).1 events with
  | none => rw [hep] at hout; exact absurd hout (by simp)
  | some te =>
    rw [hep] at hout
    refine ⟨te, rfl, ?_⟩
    have := (Option.some.injEq _ _).mp hout
    rw [← this]

/-- Claim C8: every world event present on input has its remaining
  duration decreased by exactly one in the returned list; an event entering
  the tick with duration above one survives, decremented; an event entering
  with duration one is absent from the returned list.  Well-formedness
  hypotheses: input event ids are distinct and the oracle id for a possible
  new event is fresh. -/
theorem tick_event_durations (state : GameState) (tribes : List Tribe)
    (vs : List Villager) (events : List WorldEvent) (lI lS : ℕ)
    (o : TickOracle) (out : TickResult)
    (hout : advanceGameTick state tribes vs events lI lS o = some out)
    (hnodup : (events.map WorldEvent.id).Nodup)
    (hfresh : o.evId ∉ events.map WorldEvent.id) :
    ∀ e ∈ events,
      (∀ e' ∈ out.newEvents, e'.id = e.id → e'.duration = e.duration - 1) ∧
      (1 < e.duration →
        ∃ e' ∈ out.newEvents, e'.id = e.id ∧ e'.duration = e.duration - 1) ∧
      (e.duration = 1 → ∀ e' ∈ out.newEvents, e'.id ≠ e.id) := by
  obtain ⟨te, hep, hne⟩ := advanceGameTick_newEvents state tribes vs events
    lI lS o out hout
  have hte := eventsPhase_events _ o _ te.1 events te.2 (by rw [hep])
  have hmem : ∀ e ∈ events, e ∈ te.2 := by
    intro e he
    rcases hte with h | ⟨ev, _, h⟩
    · rw [h]; exact he
    · rw [h]; exact List.mem_append_left _ he
  have hsrc : ∀ f ∈ te.2, ∀ e ∈ events, f.id = e.id → f = e := by
    intro f hf e he hfid
    have hinj := List.inj_on_of_nodup_map hnodup
    rcases hte with h | ⟨ev, hevid, h⟩
    · rw [h] at hf; exact hinj hf he hfid
    · rw [h] at hf
      rcases List.mem_append.mp hf with h' | h'
      · exact hinj h' he hfid
      · exfalso
        have hfev : f = ev := List.mem_singleton.mp h'
        rw [hfev, hevid] at hfid
        exact hfresh (hfid ▸ List.mem_map_of_mem WorldEvent.id he)
  intro e he
  refine ⟨?_, ?_, ?_⟩
  · intro e' he' hid
    rw [hne] at he'
    rcases List.mem_map.mp (List.mem_of_mem_filter he') with ⟨f, hf, hfe⟩
    have hfid : f.id = e.id := by rw [← hid, ← hfe]
    have : f = e := hsrc f hf e he hfid
    rw [← hfe, this]
  · intro hdur
    refine ⟨{ e with duration := e.duration - 1 }, ?_, rfl, rfl⟩
    rw [hne]
    refine List.mem_filter.mpr ⟨List.mem_map_of_mem _ (hmem e he), ?_⟩
    simp only [decide_eq_true_eq]
    omega
  · intro hdur e' he' hid
    rw [hne] at he'
    have he'f := List.mem_filter.mp he'
    rcases List.mem_map.mp he'f.1 with ⟨f, hf, hfe⟩
    have hfid : f.id = e.id := by rw [← hid, ← hfe]
    have hfeq : f = e := hsrc f hf e he hfid
    have hpos : (0 : ℤ) < e'.duration := by simpa using he'f.2
    rw [← hfe, hfeq] at hpos
    simp only at hpos
    omega

/-- Game state with every optional subsystem disabled, for the C8
  witness. -/
def stC8 : GameState where
  gameTick := 0
  immigrationEnabled := false
  tribeSplittingEnabled := false
  randomEventsEnabled := false

/-- The C8 game state after the tick counter advance. -/
def stC8b : GameState where
  gameTick := 1
  immigrationEnabled := false
  tribeSplittingEnabled := false
  randomEventsEnabled := false

/-- The C8 world event: duration 2 on entry. -/
def evC8 : WorldEvent where
  id := 5
  type := EvType.storm
  posX := 700
  posY := 700
  radius := 60
  severity := 2
  duration := 2
  affectedTribeId := none

/-- The C8 tick output: the event survives with duration 1. -/
def outC8 : TickResult where
  newState := stC8b
  newTribes := []
  newVillagers := []
  newEvents := [{ evC8 with duration := 1 }]
  lastImmigrationTick := 0
  lastSplitTick := 0

theorem tickC8_eval : advanceGameTick stC8 [] [] [evC8] 0 0 baseTO = some outC8 := by
  have hstate : { stC8 with gameTick := stC8.gameTick + 1 } = stC8b := rfl
  have himm : immigrationPhase stC8b 0 baseTO [] [] = ([], 0) := by
    simp [immigrationPhase, show stC8b.immigrationEnabled = false from rfl]
  have hsplit : splitPhase stC8b 0 baseTO [] [] = ([], [], 0) := by
    simp [splitPhase, show stC8b.tribeSplittingEnabled = false from rfl]
  have hev : eventsPhase stC8b baseTO [] [evC8] = some ([], [evC8]) := by
    simp [eventsPhase, show stC8b.randomEventsEnabled = false from rfl]
  simp only [advanceGameTick, hstate, List.filter_nil, processAllTribes,
    himm, hsplit, hev]
  norm_num [outC8, evC8, stC8b]

/-- Claim C8 witness: the duration law applied to the concrete run in which
  a duration-2 event survives one tick with duration exactly 1. -/
theorem tick_event_durations_witness :
    ∃ e' ∈ outC8.newEvents, e'.id = evC8.id ∧ e'.duration = evC8.duration - 1 :=
  ((tick_event_durations stC8 [] [] [evC8] 0 0 baseTO outC8 tickC8_eval
    (by simp) (by simp [evC8, baseTO])) evC8
    (List.mem_singleton.mpr rfl)).2.1 (by norm_num [evC8])

-- === INVARIANT FRAMEWORK (claims C1, C4, C10) ===

/-- The four vitals lie in [0, 100]. -/
def vitalsOk (v : Villager) : Prop :=
  0 ≤ v.health ∧ v.health ≤ 100 ∧ 0 ≤ v.energy ∧ v.energy ≤ 100 ∧
  0 ≤ v.hunger ∧ v.hunger ≤ 100 ∧ 0 ≤ v.happiness ∧ v.happiness ≤ 100

/-- The material stockpiles are non-negative. -/
def tribeOk (t : Tribe) : Prop :=
  0 ≤ t.food ∧ 0 ≤ t.wood ∧ 0 ≤ t.stone

/-- The three work skills feeding food, wood and stone production are
  non-negative. -/
def skillsOk (v : Villager) : Prop :=
  0 ≤ v.skillFarming ∧ 0 ≤ v.skillBuilding ∧ 0 ≤ v.skillGathering

theorem baseVO_valid : baseVO.Valid := by
  unfold VOracle.Valid u01 baseVO
  norm_num

theorem baseTO_valid : baseTO.Valid := by
  unfold TickOracle.Valid u01 baseTO
  norm_num
  all_goals first
    | exact baseVO_valid
    | exact fun _ => baseVO_valid

/-- Members of a modifyFirst image: unchanged members or the f-image of a
  member satisfying the predicate. -/
theorem mem_modifyFirst {p : α → Bool} {f : α → α} {l : List α} {w : α}
    (hw : w ∈ modifyFirst p f l) :
    w ∈ l ∨ ∃ a, a ∈ l ∧ p a = true ∧ w = f a := by
  induction l with
  | nil => simp [modifyFirst] at hw
  | cons b bs ih =>
    by_cases hb : p b
    · rw [modifyFirst, if_pos hb] at hw
      rcases List.mem_cons.mp hw with h | h
      · exact Or.inr ⟨b, List.mem_cons_self b bs, hb, h⟩
      · exact Or.inl (List.mem_cons_of_mem b h)
    · rw [modifyFirst, if_neg hb] at hw
      rcases List.mem_cons.mp hw with h | h
      · exact Or.inl (h ▸ List.mem_cons_self b bs)
      · rcases ih h with h' | ⟨a, ha, hpa, hfa⟩
        · exact Or.inl (List.mem_cons_of_mem b h')
        · exact Or.inr ⟨a, List.mem_cons_of_mem b ha, hpa, hfa⟩

/-- Vital decay, starvation and sleep recovery keep the vitals in range
  (the fields written are clamped even on the death branch). -/
theorem vitalsStage_vitals (v : Villager) (o : VOracle) (h : vitalsOk v) :
    vitalsOk (vitalsStage v o) := by
  obtain ⟨h1, h2, h3, h4, h5, h6, h7, h8⟩ := h
  have hHR : HUNGER_RATE = 0.04 := rfl
  have hER : ENERGY_RATE = 0.025 := rfl
  have hHL : HEALING_RATE = 0.15 := rfl
  have e1 : (0:ℚ) ≤ max 0 (v.energy - ENERGY_RATE) := le_max_left _ _
  have e2 : max 0 (v.energy - ENERGY_RATE) ≤ 100 :=
    max_le (by norm_num) (by rw [hER]; linarith)
  have e3 : (0:ℚ) ≤ max 0 (v.health - 0.15) := le_max_left _ _
  have e4 : max 0 (v.health - 0.15) ≤ 100 :=
    max_le (by norm_num) (by linarith)
  have e5 : (0:ℚ) ≤ min 100 (v.hunger + HUNGER_RATE) :=
    le_min (by norm_num) (by rw [hHR]; linarith)
  have e6 : min 100 (v.hunger + HUNGER_RATE) ≤ 100 := min_le_left _ _
  unfold vitalsStage
  dsimp only
  split_ifs <;>
    first
      | exact ⟨h1, h2, e1, e2, e5, e6, h7, h8⟩
      | exact ⟨e3, e4, e1, e2, e5, e6, h7, h8⟩
      | exact ⟨le_min (by norm_num) (by rw [hHL]; linarith),
          min_le_left _ _,
          le_min (by norm_num) (by linarith),
          min_le_left _ _, e5, e6, h7, h8⟩

/-- Danger detection keeps a surviving villager's vitals in range. -/
theorem dangerStage_vitals (dangers : List Danger) (v : Villager)
    (o : VOracle) (hu1 : 0 ≤ o.wildDmgU) (hu2 : 0 ≤ o.diseaseDmgU)
    (h : vitalsOk v) (hnd : (dangerStage dangers v o).isDead = false) :
    vitalsOk (dangerStage dangers v o) := by
  obtain ⟨h1, h2, h3, h4, h5, h6, h7, h8⟩ := h
  unfold dangerStage at hnd ⊢
  cases hd : dangers.find? (fun d => dist2 v.posX v.posY d.x d.y < 80 ^ 2) with
  | none => exact ⟨h1, h2, h3, h4, h5, h6, h7, h8⟩
  | some d =>
    rw [hd] at hnd
    have hdm1 : (0:ℚ) ≤ o.wildDmgU * 20 * (d.severity : ℚ) :=
      mul_nonneg (mul_nonneg hu1 (by norm_num)) (Nat.cast_nonneg _)
    have hdm2 : (0:ℚ) ≤ o.diseaseDmgU * 10 := mul_nonneg hu2 (by norm_num)
    dsimp only at hnd ⊢
    split_ifs at hnd ⊢
    all_goals try exact ⟨h1, h2, h3, h4, h5, h6, h7, h8⟩
    all_goals try (refine ⟨?_, ?_, h3, h4, h5, h6, h7, h8⟩ <;> (dsimp only; linarith))
    all_goals simp at hnd

/-- Random accidents keep a surviving villager's vitals in range. -/
theorem accidentStage_vitals (v : Villager) (o : VOracle)
    (hu : 0 ≤ o.accDmgU) (h : vitalsOk v)
    (hnd : (accidentStage v o).isDead = false) :
    vitalsOk (accidentStage v o) := by
  obtain ⟨h1, h2, h3, h4, h5, h6, h7, h8⟩ := h
  have hsev : (0:ℚ) ≤ (if v.traits.contains "Lucky" then (0.5 : ℚ) else 1) := by
    split_ifs <;> norm_num
  have hdm : (0:ℚ) ≤ (20 + o.accDmgU * 40) *
      (if v.traits.contains "Lucky" then (0.5 : ℚ) else 1) :=
    mul_nonneg (by nlinarith) hsev
  unfold accidentStage at hnd ⊢
  dsimp only at hnd ⊢
  split_ifs at hnd ⊢
  all_goals try exact ⟨h1, h2, h3, h4, h5, h6, h7, h8⟩
  all_goals try (refine ⟨?_, ?_, h3, h4, h5, h6, h7, h8⟩ <;> (dsimp only; linarith))
  all_goals simp at hnd

/-- The idle task assignment only rewrites the action and the target
  fields. -/
theorem assignTask_shape (t : Tribe) (v : Villager) (o : VOracle) :
    ∃ a tx ty, assignTask t v o =
      { v with action := a, targetX := tx, targetY := ty } := by
  unfold assignTask
  cases pickIdleTask t o.taskU <;> exact ⟨_, _, _, rfl⟩

theorem shape_trans (v v' : Villager) (t : Tribe) (o : VOracle)
    (h : ∃ a tx ty, v' = { v with action := a, targetX := tx, targetY := ty }) :
    ∃ a tx ty, assignTask t v' o =
      { v with action := a, targetX := tx, targetY := ty } := by
  obtain ⟨a, tx, ty, rfl⟩ := h
  obtain ⟨a2, tx2, ty2, h2⟩ := assignTask_shape t
    { v with action := a, targetX := tx, targetY := ty } o
  exact ⟨a2, tx2, ty2, by rw [h2]⟩

/-- The decision step only rewrites the action and the target fields. -/
theorem decideAction_shape (t : Tribe) (v : Villager) (o : VOracle) :
    ∃ a tx ty, decideAction t v o =
      { v with action := a, targetX := tx, targetY := ty } := by
  unfold decideAction
  dsimp only
  split_ifs <;>
    first
      | exact shape_trans v _ t o ⟨_, _, _, rfl⟩
      | exact ⟨_, _, _, rfl⟩

/-- performWork keeps the vitals in range and does not change identity,
  happiness or the death flag. -/
theorem performWork_vitals (v : Villager) (t : Tribe) (o : VOracle)
    (h : vitalsOk v) : vitalsOk (performWork v t o).1 ∧
      (performWork v t o).1.isDead = v.isDead ∧
      (performWork v t o).1.id = v.id ∧
      (performWork v t o).1.happiness = v.happiness := by
  obtain ⟨h1, h2, h3, h4, h5, h6, h7, h8⟩ := h
  have g1 : (0:ℚ) ≤ max 0 (v.hunger - 1.2) := le_max_left _ _
  have g2 : max 0 (v.hunger - 1.2) ≤ 100 := max_le (by norm_num) (by linarith)
  unfold performWork
  cases hva : v.action <;> dsimp only <;> (try split_ifs) <;>
    exact ⟨⟨by first | exact h1 | exact g1 | linarith,
            by first | exact h2 | exact g2 | linarith,
            h3, h4,
            by first | exact h5 | exact g1 | linarith,
            by first | exact h6 | exact g2 | linarith,
            h7, h8⟩, rfl, rfl, rfl⟩

/-- Movement and work execution keep the vitals in range and do not change
  identity, happiness or the death flag. -/
theorem movementStage_vitals (t : Tribe) (v : Villager) (o : VOracle)
    (h : vitalsOk v) : vitalsOk (movementStage t v o).1 ∧
      (movementStage t v o).1.isDead = v.isDead ∧
      (movementStage t v o).1.id = v.id ∧
      (movementStage t v o).1.happiness = v.happiness := by
  have hpw := performWork_vitals v t o h
  obtain ⟨h1, h2, h3, h4, h5, h6, h7, h8⟩ := h
  obtain ⟨⟨p1, p2, p3, p4, p5, p6, p7, p8⟩, pd, pid, php⟩ := hpw
  unfold movementStage
  cases htx : v.targetX <;> cases hty : v.targetY <;> dsimp only <;>
    split_ifs <;>
    exact ⟨⟨by first | exact h1 | exact p1,
            by first | exact h2 | exact p2,
            by first | exact h3 | exact p3,
            by first | exact h4 | exact p4,
            by first | exact h5 | exact p5,
            by first | exact h6 | exact p6,
            by first | exact h7 | exact p7,
            by first | exact h8 | exact p8⟩,
          by first | rfl | exact pd,
          by first | rfl | exact pid,
          by first | rfl | exact php⟩

/-- The vitals stage leaves identity, happiness and skills untouched. -/
theorem vitalsStage_frame (v : Villager) (o : VOracle) :
    (vitalsStage v o).id = v.id ∧ (vitalsStage v o).happiness = v.happiness ∧
    (vitalsStage v o).skillFarming = v.skillFarming ∧
    (vitalsStage v o).skillBuilding = v.skillBuilding ∧
    (vitalsStage v o).skillGathering = v.skillGathering := by
  unfold vitalsStage
  dsimp only
  split_ifs <;> exact ⟨rfl, rfl, rfl, rfl, rfl⟩

/-- The danger stage leaves identity, happiness and skills untouched. -/
theorem dangerStage_frame (dangers : List Danger) (v : Villager) (o : VOracle) :
    (dangerStage dangers v o).id = v.id ∧
    (dangerStage dangers v o).happiness = v.happiness ∧
    (dangerStage dangers v o).skillFarming = v.skillFarming ∧
    (dangerStage dangers v o).skillBuilding = v.skillBuilding ∧
    (dangerStage dangers v o).skillGathering = v.skillGathering := by
  unfold dangerStage
  cases hd : dangers.find? (fun d => dist2 v.posX v.posY d.x d.y < 80 ^ 2) with
  | none => exact ⟨rfl, rfl, rfl, rfl, rfl⟩
  | some d =>
    dsimp only
    split_ifs <;> exact ⟨rfl, rfl, rfl, rfl, rfl⟩

/-- The accident stage leaves identity, happiness and skills untouched. -/
theorem accidentStage_frame (v : Villager) (o : VOracle) :
    (accidentStage v o).id = v.id ∧
    (accidentStage v o).happiness = v.happiness ∧
    (accidentStage v o).skillFarming = v.skillFarming ∧
    (accidentStage v o).skillBuilding = v.skillBuilding ∧
    (accidentStage v o).skillGathering = v.skillGathering := by
  unfold accidentStage
  dsimp only
  split_ifs <;> exact ⟨rfl, rfl, rfl, rfl, rfl⟩

/-- The decision step leaves identity, happiness and skills untouched. -/
theorem decideAction_frame (t : Tribe) (v : Villager) (o : VOracle) :
    (decideAction t v o).id = v.id ∧
    (decideAction t v o).happiness = v.happiness ∧
    (decideAction t v o).skillFarming = v.skillFarming ∧
    (decideAction t v o).skillBuilding = v.skillBuilding ∧
    (decideAction t v o).skillGathering = v.skillGathering := by
  obtain ⟨a, tx, ty, hsh⟩ := decideAction_shape t v o
  rw [hsh]
  exact ⟨rfl, rfl, rfl, rfl, rfl⟩

/-- Work execution leaves identity, happiness and the death flag untouched
  and keeps the work skills non-negative. -/
theorem performWork_frame (v : Villager) (t : Tribe) (o : VOracle) :
    (performWork v t o).1.id = v.id ∧
    (performWork v t o).1.happiness = v.happiness ∧
    (performWork v t o).1.isDead = v.isDead ∧
    (skillsOk v → skillsOk (performWork v t o).1) := by
  unfold performWork
  cases hva : v.action <;> dsimp only <;> (try split_ifs) <;>
    exact ⟨rfl, rfl, rfl, fun hs =>
      ⟨by first | exact hs.1 | (dsimp only; exact le_min (by norm_num) (by linarith [hs.1])),
       by first | exact hs.2.1 | (dsimp only; exact le_min (by norm_num) (by linarith [hs.2.1])),
       by first | exact hs.2.2 | (dsimp only; exact le_min (by norm_num) (by linarith [hs.2.2]))⟩⟩

/-- Movement leaves identity, happiness and the death flag untouched and
  keeps the work skills non-negative. -/
theorem movementStage_frame (t : Tribe) (v : Villager) (o : VOracle) :
    (movementStage t v o).1.id = v.id ∧
    (movementStage t v o).1.happiness = v.happiness ∧
    (movementStage t v o).1.isDead = v.isDead ∧
    (skillsOk v → skillsOk (movementStage t v o).1) := by
  obtain ⟨p1, p2, p3, p4⟩ := performWork_frame v t o
  unfold movementStage
  cases htx : v.targetX <;> cases hty : v.targetY <;> dsimp only <;>
    (try split_ifs) <;>
    exact ⟨by first | rfl | exact p1, by first | rfl | exact p2,
           by first | rfl | exact p3,
           fun hs => by first | exact hs | exact p4 hs⟩

/-- Work execution keeps the tribe's material stockpiles non-negative. -/
theorem performWork_tribe (v : Villager) (t : Tribe) (o : VOracle)
    (hs : skillsOk v) (ht : tribeOk t) : tribeOk (performWork v t o).2 := by
  obtain ⟨s1, s2, s3⟩ := hs
  obtain ⟨t1, t2, t3⟩ := ht
  unfold performWork skillBonus
  cases hva : v.action <;> dsimp only <;> (try split_ifs) <;>
    exact ⟨by first | exact t1 | exact le_max_left _ _ | (dsimp only; linarith),
           by first | exact t2 | (dsimp only; linarith),
           by first | exact t3 | (dsimp only; linarith)⟩

/-- Movement keeps the tribe's material stockpiles non-negative. -/
theorem movementStage_tribe (t : Tribe) (v : Villager) (o : VOracle)
    (hs : skillsOk v) (ht : tribeOk t) : tribeOk (movementStage t v o).2 := by
  have hp := performWork_tribe v t o hs ht
  unfold movementStage
  cases htx : v.targetX <;> cases hty : v.targetY <;> dsimp only <;>
    (try split_ifs) <;> first | exact ht | exact hp

/-- One villager step: identity and happiness of the processed copy are
  those of the input villager. -/
theorem stepVillager_id_happiness (dangers : List Danger) (t : Tribe)
    (v : Villager) (o : VOracle) :
    (stepVillager dangers t v o).1.id = v.id ∧
    (stepVillager dangers t v o).1.happiness = v.happiness := by
  obtain ⟨a1, a2, _, _, _⟩ := vitalsStage_frame v o
  obtain ⟨b1, b2, _, _, _⟩ := dangerStage_frame dangers (vitalsStage v o) o
  obtain ⟨c1, c2, _, _, _⟩ :=
    accidentStage_frame (dangerStage dangers (vitalsStage v o) o) o
  obtain ⟨d1, d2, _, _, _⟩ := decideAction_frame t
    (accidentStage (dangerStage dangers (vitalsStage v o) o) o) o
  obtain ⟨m1, m2, _, _⟩ := movementStage_frame t
    (decideAction t (accidentStage (dangerStage dangers (vitalsStage v o) o) o) o) o
  unfold stepVillager
  dsimp only
  split_ifs <;>
    exact ⟨by first
            | exact a1
            | exact b1.trans a1
            | exact (c1.trans b1).trans a1
            | exact (m1.trans ((d1.trans c1).trans b1)).trans a1,
           by first
            | exact a2
            | exact b2.trans a2
            | exact (c2.trans b2).trans a2
            | exact (m2.trans ((d2.trans c2).trans b2)).trans a2⟩

/-- One villager step keeps the work skills non-negative. -/
theorem stepVillager_skillsOk (dangers : List Danger) (t : Tribe)
    (v : Villager) (o : VOracle) (hs : skillsOk v) :
    skillsOk (stepVillager dangers t v o).1 := by
  obtain ⟨_, _, a3, a4, a5⟩ := vitalsStage_frame v o
  obtain ⟨_, _, b3, b4, b5⟩ := dangerStage_frame dangers (vitalsStage v o) o
  obtain ⟨_, _, c3, c4, c5⟩ :=
    accidentStage_frame (dangerStage dangers (vitalsStage v o) o) o
  obtain ⟨_, _, d3, d4, d5⟩ := decideAction_frame t
    (accidentStage (dangerStage dangers (vitalsStage v o) o) o) o
  obtain ⟨_, _, _, m4⟩ := movementStage_frame t
    (decideAction t (accidentStage (dangerStage dangers (vitalsStage v o) o) o) o) o
  obtain ⟨s1, s2, s3⟩ := hs
  have hs1 : skillsOk (vitalsStage v o) := ⟨a3 ▸ s1, a4 ▸ s2, a5 ▸ s3⟩
  have hs2 : skillsOk (dangerStage dangers (vitalsStage v o) o) :=
    ⟨b3 ▸ hs1.1, b4 ▸ hs1.2.1, b5 ▸ hs1.2.2⟩
  have hs3 : skillsOk (accidentStage (dangerStage dangers (vitalsStage v o) o) o) :=
    ⟨c3 ▸ hs2.1, c4 ▸ hs2.2.1, c5 ▸ hs2.2.2⟩
  have hs4 : skillsOk (decideAction t
      (accidentStage (dangerStage dangers (vitalsStage v o) o) o) o) :=
    ⟨d3 ▸ hs3.1, d4 ▸ hs3.2.1, d5 ▸ hs3.2.2⟩
  unfold stepVillager
  dsimp only
  split_ifs <;> first | exact hs1 | exact hs2 | exact hs3 | exact m4 hs4

/-- One villager step keeps the tribe's material stockpiles non-negative. -/
theorem stepVillager_tribeOk (dangers : List Danger) (t : Tribe)
    (v : Villager) (o : VOracle) (hs : skillsOk v) (ht : tribeOk t) :
    tribeOk (stepVillager dangers t v o).2 := by
  obtain ⟨_, _, a3, a4, a5⟩ := vitalsStage_frame v o
  obtain ⟨_, _, b3, b4, b5⟩ := dangerStage_frame dangers (vitalsStage v o) o
  obtain ⟨_, _, c3, c4, c5⟩ :=
    accidentStage_frame (dangerStage dangers (vitalsStage v o) o) o
  obtain ⟨_, _, d3, d4, d5⟩ := decideAction_frame t
    (accidentStage (dangerStage dangers (vitalsStage v o) o) o) o
  obtain ⟨s1, s2, s3⟩ := hs
  have hs1 : skillsOk (vitalsStage v o) := ⟨a3 ▸ s1, a4 ▸ s2, a5 ▸ s3⟩
  have hs2 : skillsOk (dangerStage dangers (vitalsStage v o) o) :=
    ⟨b3 ▸ hs1.1, b4 ▸ hs1.2.1, b5 ▸ hs1.2.2⟩
  have hs3 : skillsOk (accidentStage (dangerStage dangers (vitalsStage v o) o) o) :=
    ⟨c3 ▸ hs2.1, c4 ▸ hs2.2.1, c5 ▸ hs2.2.2⟩
  have hs4 : skillsOk (decideAction t
      (accidentStage (dangerStage dangers (vitalsStage v o) o) o) o) :=
    ⟨d3 ▸ hs3.1, d4 ▸ hs3.2.1, d5 ▸ hs3.2.2⟩
  have hm := movementStage_tribe t
    (decideAction t (accidentStage (dangerStage dangers (vitalsStage v o) o) o) o)
    o hs4 ht
  unfold stepVillager
  dsimp only
  split_ifs <;> first | exact ht | exact hm

/-- One villager step keeps a surviving copy's vitals in range. -/
theorem stepVillager_vitals (dangers : List Danger) (t : Tribe)
    (v : Villager) (o : VOracle) (hval : o.Valid) (h : vitalsOk v)
    (hnd : (stepVillager dangers t v o).1.isDead = false) :
    vitalsOk (stepVillager dangers t v o).1 := by
  obtain ⟨hs, hn, hwr, hw, hdr, hdd, har, hat, had, _⟩ := hval
  unfold stepVillager at hnd ⊢
  dsimp only at hnd ⊢
  split_ifs at hnd ⊢ with d1 d2 d3
  · exact absurd (hnd ▸ d1) (by decide)
  · exact absurd (hnd ▸ d2) (by decide)
  · exact absurd (hnd ▸ d3) (by decide)
  · have hv1 : vitalsOk (vitalsStage v o) := vitalsStage_vitals v o h
    have hv2 : vitalsOk (dangerStage dangers (vitalsStage v o) o) :=
      dangerStage_vitals dangers (vitalsStage v o) o hw.1 hdd.1 hv1
        (by simpa using d2)
    have hv3 : vitalsOk (accidentStage (dangerStage dangers (vitalsStage v o) o) o) :=
      accidentStage_vitals (dangerStage dangers (vitalsStage v o) o) o had.1 hv2
        (by simpa using d3)
    obtain ⟨a, tx, ty, hsh⟩ := decideAction_shape t
      (accidentStage (dangerStage dangers (vitalsStage v o) o) o) o
    have hv4 : vitalsOk (decideAction t
        (accidentStage (dangerStage dangers (vitalsStage v o) o) o) o) := by
      rw [hsh]; exact hv3
    exact (movementStage_vitals t _ o hv4).1

/-- Work execution does not change the tribe id. -/
theorem performWork_tribe_id (v : Villager) (t : Tribe) (o : VOracle) :
    (performWork v t o).2.id = t.id := by
  unfold performWork
  cases hva : v.action <;> dsimp only <;> (try split_ifs) <;> rfl

/-- Movement does not change the tribe id. -/
theorem movementStage_tribe_id (t : Tribe) (v : Villager) (o : VOracle) :
    (movementStage t v o).2.id = t.id := by
  have hp := performWork_tribe_id v t o
  unfold movementStage
  cases htx : v.targetX <;> cases hty : v.targetY <;> dsimp only <;>
    (try split_ifs) <;> first | rfl | exact hp

/-- One villager step does not change the tribe id. -/
theorem stepVillager_tribe_id (dangers : List Danger) (t : Tribe)
    (v : Villager) (o : VOracle) : (stepVillager dangers t v o).2.id = t.id := by
  have hm := movementStage_tribe_id t
    (decideAction t (accidentStage (dangerStage dangers (vitalsStage v o) o) o) o) o
  unfold stepVillager
  dsimp only
  split_ifs <;> first | rfl | exact hm

/-- Generic membership preservation through the roster of one tribe. -/
theorem processTribeVillagers_pres (P : Villager → Prop)
    (dangers : List Danger) (o : ℕ → VOracle)
    (hstep : ∀ (t : Tribe) (v : Villager), P v →
      (stepVillager dangers t v (o v.id)).1.isDead = false →
      P (stepVillager dangers t v (o v.id)).1) :
    ∀ (snap : List Villager) (t : Tribe) (vs : List Villager),
      (∀ s ∈ snap, P s) → (∀ w ∈ vs, P w) →
      ∀ w ∈ (processTribeVillagers dangers o snap t vs).2, P w := by
  intro snap
  induction snap with
  | nil => intro t vs _ hvs w hw; exact hvs w hw
  | cons v rest ih =>
    intro t vs hsnap hvs w hw
    rw [processTribeVillagers] at hw
    by_cases hd : (stepVillager dangers t v (o v.id)).1.isDead = true
    · rw [if_pos hd] at hw
      exact ih _ _ (fun s hs => hsnap s (List.mem_cons_of_mem v hs)) hvs w hw
    · rw [if_neg hd] at hw
      refine ih _ _ (fun s hs => hsnap s (List.mem_cons_of_mem v hs)) ?_ w hw
      intro u hu
      rcases mem_modifyFirst hu with h1 | ⟨a, _, _, rfl⟩
      · exact hvs u h1
      · exact hstep t v (hsnap v (List.mem_cons_self v rest)) (by simpa using hd)

/-- Generic membership preservation through the whole tribe loop. -/
theorem processAllTribes_pres (P : Villager → Prop)
    (dangers : List Danger) (o : ℕ → VOracle)
    (hstep : ∀ (t : Tribe) (v : Villager), P v →
      (stepVillager dangers t v (o v.id)).1.isDead = false →
      P (stepVillager dangers t v (o v.id)).1) :
    ∀ (ts : List Tribe) (vs : List Villager), (∀ w ∈ vs, P w) →
      ∀ w ∈ (processAllTribes dangers o ts vs).2, P w := by
  intro ts
  induction ts with
  | nil => intro vs h w hw; exact h w hw
  | cons t ts ih =>
    intro vs h w hw
    rw [processAllTribes] at hw
    dsimp only at hw
    exact ih _ (fun u hu => processTribeVillagers_pres P dangers o hstep
      (livingOf vs t.id) t vs
      (fun s hs => h s (List.mem_of_mem_filter hs)) h u hu) w hw

/-- The processed tribe of one roster pass keeps non-negative stockpiles. -/
theorem processTribeVillagers_tribeOk (dangers : List Danger) (o : ℕ → VOracle) :
    ∀ (snap : List Villager) (t : Tribe) (vs : List Villager),
      (∀ s ∈ snap, skillsOk s) → tribeOk t →
      tribeOk (processTribeVillagers dangers o snap t vs).1 := by
  intro snap
  induction snap with
  | nil => intro t vs _ ht; exact ht
  | cons v rest ih =>
    intro t vs hsnap ht
    rw [processTribeVillagers]
    exact ih _ _ (fun s hs => hsnap s (List.mem_cons_of_mem v hs))
      (stepVillager_tribeOk dangers t v (o v.id)
        (hsnap v (List.mem_cons_self v rest)) ht)

/-- The processed tribe of one roster pass keeps its id. -/
theorem processTribeVillagers_id (dangers : List Danger) (o : ℕ → VOracle) :
    ∀ (snap : List Villager) (t : Tribe) (vs : List Villager),
      (processTribeVillagers dangers o snap t vs).1.id = t.id := by
  intro snap
  induction snap with
  | nil => intro t vs; rfl
  | cons v rest ih =>
    intro t vs
    rw [processTribeVillagers]
    exact (ih _ _).trans (stepVillager_tribe_id dangers t v (o v.id))

/-- The tribe loop returns tribes with the same ids, in order. -/
theorem processAllTribes_ids (dangers : List Danger) (o : ℕ → VOracle) :
    ∀ (ts : List Tribe) (vs : List Villager),
      (processAllTribes dangers o ts vs).1.map Tribe.id = ts.map Tribe.id := by
  intro ts
  induction ts with
  | nil => intro vs; rfl
  | cons t ts ih =>
    intro vs
    rw [processAllTribes]
    dsimp only [processOneTribe]
    rw [List.map_cons, List.map_cons, ih, processTribeVillagers_id]

/-- All tribes of the tribe loop keep non-negative stockpiles. -/
theorem processAllTribes_tribesOk (dangers : List Danger) (o : ℕ → VOracle) :
    ∀ (ts : List Tribe) (vs : List Villager), (∀ w ∈ vs, skillsOk w) →
      (∀ t ∈ ts, tribeOk t) →
      ∀ t' ∈ (processAllTribes dangers o ts vs).1, tribeOk t' := by
  intro ts
  induction ts with
  | nil => intro vs _ _ t' ht'; exact absurd ht' (by simp [processAllTribes])
  | cons t ts ih =>
    intro vs hvs hts t' ht'
    rw [processAllTribes] at ht'
    dsimp only at ht'
    rcases List.mem_cons.mp ht' with h1 | h1
    · rw [h1]
      exact processTribeVillagers_tribeOk dangers o (livingOf vs t.id) t vs
        (fun s hs => hvs s (List.mem_of_mem_filter hs))
        (hts t (List.mem_cons_self t ts))
    · exact ih _
        (fun w hw => processTribeVillagers_pres skillsOk dangers o
          (fun t v hv _ => stepVillager_skillsOk dangers t v (o v.id) hv)
          (livingOf vs t.id) t vs
          (fun s hs => hvs s (List.mem_of_mem_filter hs)) hvs w hw)
        (fun u hu => hts u (List.mem_cons_of_mem t hu)) t' h1

/-- Members of the immigration output are input members or the immigrant. -/
theorem immigrationPhase_vs (state : GameState) (lI : ℕ) (o : TickOracle)
    (tribes : List Tribe) (vs : List Villager) :
    ∀ w ∈ (immigrationPhase state lI o tribes vs).1,
      w ∈ vs ∨ ∃ tid, w = buildImmigrant o tid := by
  unfold immigrationPhase
  split_ifs with hc
  · cases hal : tribes.filter (fun t => decide (0 < (livingOf vs t.id).length)) with
    | nil => dsimp only; exact fun w hw => Or.inl hw
    | cons t0 ts' =>
      dsimp only
      intro w hw
      rcases List.mem_append.mp hw with h1 | h1
      · exact Or.inl h1
      · exact Or.inr ⟨_, List.mem_singleton.mp h1⟩
  · exact fun w hw => Or.inl hw

/-- Generic membership preservation through a fold of modifyFirst. -/
theorem foldl_modifyFirst_pres (P : α → Prop) (p : β → α → Bool)
    (f : β → α → α) (hf : ∀ b a, P a → P (f b a)) :
    ∀ (l : List β) (vs : List α), (∀ w ∈ vs, P w) →
      ∀ w ∈ l.foldl (fun acc b => modifyFirst (p b) (f b) acc) vs, P w := by
  intro l
  induction l with
  | nil => intro vs h w hw; exact h w hw
  | cons b bs ih =>
    intro vs h w hw
    rw [List.foldl_cons] at hw
    refine ih _ ?_ w hw
    intro u hu
    rcases mem_modifyFirst hu with h1 | ⟨a, ha, _, rfl⟩
    · exact h u h1
    · exact hf b a (h a ha)

/-- Generic membership preservation of villagers through the splitting
  phase: every output member is an input member or a relocated input
  member. -/
theorem splitPhase_vs_pres (P : Villager → Prop)
    (hrel : ∀ (tid : ℕ) (x y : ℚ) (w : Villager), P w →
      P { w with tribeId := tid, posX := x, posY := y })
    (state : GameState) (lS : ℕ) (o : TickOracle) (tribes : List Tribe)
    (vs : List Villager) (h : ∀ w ∈ vs, P w) :
    ∀ w ∈ (splitPhase state lS o tribes vs).2.1, P w := by
  unfold splitPhase
  split_ifs with hc
  · cases hfind : tribes.find? (fun t =>
        decide (MIN_POP_FOR_SPLIT ≤ (livingOf vs t.id).length) &&
        decide (o.splitRoll t.id < SPLIT_CHANCE_PER_TICK)) with
    | none => dsimp only; exact h
    | some tribe =>
      dsimp only
      unfold applySplit
      dsimp only
      exact foldl_modifyFirst_pres P _ _
        (fun s w hw => hrel _ _ _ w hw) _ vs h
  · exact h

/-- Tribes in the splitting-phase output keep non-negative stockpiles
  (the source tribe is debited by no more than it holds, the new tribe
  receives non-negative floors). -/
theorem splitPhase_stocks (state : GameState) (lS : ℕ) (o : TickOracle)
    (tribes : List Tribe) (vs : List Villager)
    (hnodup : (tribes.map Tribe.id).Nodup)
    (h : ∀ t ∈ tribes, tribeOk t) :
    ∀ t' ∈ (splitPhase state lS o tribes vs).1, tribeOk t' := by
  unfold splitPhase
  split_ifs with hc
  · cases hfind : tribes.find? (fun t =>
        decide (MIN_POP_FOR_SPLIT ≤ (livingOf vs t.id).length) &&
        decide (o.splitRoll t.id < SPLIT_CHANCE_PER_TICK)) with
    | none => dsimp only; exact h
    | some tribe =>
      have htribe : tribe ∈ tribes := List.mem_of_find?_eq_some hfind
      obtain ⟨hf, hw, hs⟩ := h tribe htribe
      have ff := Int.floor_le (tribe.food * 0.3)
      have fw := Int.floor_le (tribe.wood * 0.3)
      have fs := Int.floor_le (tribe.stone * 0.3)
      have gf : (0:ℚ) ≤ ((⌊tribe.food * 0.3⌋ : ℤ) : ℚ) := by
        rw [Int.cast_nonneg]
        exact Int.le_floor.mpr (by push_cast; nlinarith)
      have gw : (0:ℚ) ≤ ((⌊tribe.wood * 0.3⌋ : ℤ) : ℚ) := by
        rw [Int.cast_nonneg]
        exact Int.le_floor.mpr (by push_cast; nlinarith)
      have gs : (0:ℚ) ≤ ((⌊tribe.stone * 0.3⌋ : ℤ) : ℚ) := by
        rw [Int.cast_nonneg]
        exact Int.le_floor.mpr (by push_cast; nlinarith)
      have gt : (0:ℚ) ≤ ((⌊tribe.techPoints * 0.2⌋ : ℤ) : ℚ) ∨ True := Or.inr trivial
      dsimp only
      unfold applySplit
      dsimp only
      intro t' ht'
      rcases List.mem_append.mp ht' with h1 | h1
      · rcases mem_modifyFirst h1 with h2 | ⟨a, ha, hpa, rfl⟩
        · exact h t' h2
        · have haeq : a = tribe :=
            List.inj_on_of_nodup_map hnodup ha htribe (by simpa using hpa)
          subst haeq
          exact ⟨by dsimp only; linarith, by dsimp only; linarith,
                 by dsimp only; linarith⟩
      · rw [List.mem_singleton.mp h1]
        exact ⟨gf, gw, gs⟩
  · exact h

/-- Tribes in the random-events output are unchanged or have received a
  blessing food bonus. -/
theorem eventsPhase_tribes (state : GameState) (o : TickOracle)
    (tribes : List Tribe) (events : List WorldEvent)
    (te : List Tribe × List WorldEvent)
    (h : eventsPhase state o tribes events = some te) :
    ∀ t' ∈ te.1, t' ∈ tribes ∨
      ∃ a ∈ tribes, t' = { a with food := a.food + (30 + o.evAmtU * 50) } := by
  unfold eventsPhase at h
  split_ifs at h with h1
  · cases hg : tribes.get? (jsFloorN (o.evTribeU * tribes.length)) with
    | none => rw [hg] at h; exact absurd h (by simp)
    | some t =>
      rw [hg] at h
      dsimp only at h
      split_ifs at h with h2
      · have hte := (Option.some.injEq _ _).mp h
        rw [← hte]
        dsimp only
        intro t' ht'
        rcases mem_modifyFirst ht' with h3 | ⟨a, ha, _, rfl⟩
        · exact Or.inl h3
        · exact Or.inr ⟨a, ha, rfl⟩
      · have hte := (Option.some.injEq _ _).mp h
        rw [← hte]
        exact fun t' ht' => Or.inl ht'
  · have hte := (Option.some.injEq _ _).mp h
    rw [← hte]
    exact fun t' ht' => Or.inl ht'

/-- The immigrant enters with vitals inside the documented ranges. -/
theorem buildImmigrant_vitals (o : TickOracle) (tid : ℕ)
    (h1 : u01 o.immHealthU) (h2 : u01 o.immEnergyU) (h3 : u01 o.immHungerU)
    (h4 : u01 o.immHappinessU) : vitalsOk (buildImmigrant o tid) := by
  obtain ⟨a1, a2⟩ := h1
  obtain ⟨b1, b2⟩ := h2
  obtain ⟨c1, c2⟩ := h3
  obtain ⟨d1, d2⟩ := h4
  unfold buildImmigrant
  exact ⟨by dsimp only; linarith, by dsimp only; linarith,
         by dsimp only; linarith, by dsimp only; linarith,
         by dsimp only; linarith, by dsimp only; linarith,
         by dsimp only; linarith, by dsimp only; linarith⟩

/-- The immigrant enters with non-negative work skills. -/
theorem buildImmigrant_skills (o : TickOracle) (tid : ℕ)
    (h1 : 0 ≤ o.immSkFarmU) (h2 : 0 ≤ o.immSkBuildU) (h3 : 0 ≤ o.immSkGathU) :
    skillsOk (buildImmigrant o tid) := by
  have gen : ∀ (u k : ℚ), 0 ≤ u → 0 ≤ k → (0:ℚ) ≤ ((⌊u * k⌋ : ℤ) : ℚ) := by
    intro u k hu hk
    rw [Int.cast_nonneg]
    exact Int.le_floor.mpr (by push_cast; exact mul_nonneg hu hk)
  unfold buildImmigrant
  exact ⟨gen _ _ h1 (by norm_num), gen _ _ h2 (by norm_num),
         gen _ _ h3 (by norm_num)⟩

/-- Deconstruction of a successful tick: the returned villager and tribe
  lists in terms of the phase pipeline. -/
theorem advanceGameTick_fields (state : GameState) (tribes : List Tribe)
    (vs : List Villager) (events : List WorldEvent) (lI lS : ℕ)
    (o : TickOracle) (out : TickResult)
    (hout : advanceGameTick state tribes vs events lI lS o = some out) :
    ∃ te : List Tribe × List WorldEvent,
      eventsPhase { state with gameTick := state.gameTick + 1 } o
        (splitPhase { state with gameTick := state.gameTick + 1 } lS o
          (processAllTribes (dangersFrom events) o.vo tribes
            (vs.filter (fun v => !v.isDead))).1
          (immigrationPhase { state with gameTick := state.gameTick + 1 } lI o
            (processAllTribes (dangersFrom events) o.vo tribes
              (vs.filter (fun v => !v.isDead))).1
            (processAllTribes (dangersFrom events) o.vo tribes
              (vs.filter (fun v => !v.isDead))).2).1).1 events = some te ∧
      out.newVillagers =
        ((splitPhase { state with gameTick := state.gameTick + 1 } lS o
          (processAllTribes (dangersFrom events) o.vo tribes
            (vs.filter (fun v => !v.isDead))).1
          (immigrationPhase { state with gameTick := state.gameTick + 1 } lI o
            (processAllTribes (dangersFrom events) o.vo tribes
              (vs.filter (fun v => !v.isDead))).1
            (processAllTribes (dangersFrom events) o.vo tribes
              (vs.filter (fun v => !v.isDead))).2).1).2.1).filter
          (fun v => !v.isDead) ∧
      out.newTribes = te.1.filter (fun t =>
        ((((splitPhase { state with gameTick := state.gameTick + 1 } lS o
          (processAllTribes (dangersFrom events) o.vo tribes
            (vs.filter (fun v => !v.isDead))).1
          (immigrationPhase { state with gameTick := state.gameTick + 1 } lI o
            (processAllTribes (dangersFrom events) o.vo tribes
              (vs.filter (fun v => !v.isDead))).1
            (processAllTribes (dangersFrom events) o.vo tribes
              (vs.filter (fun v => !v.isDead))).2).1).2.1).filter
          (fun v => !v.isDead)).map Villager.tribeId).contains t.id ||
        t.isPlayerTribe) := by
  unfold advanceGameTick at hout
  dsimp only at hout
  cases hep : eventsPhase { state with gameTick := state.gameTick + 1 } o
      (splitPhase { state with gameTick := state.gameTick + 1 } lS o
        (processAllTribes (dangersFrom events) o.vo tribes
          (vs.filter (fun v => !v.isDead))).1
        (immigrationPhase { state with gameTick := state.gameTick + 1 } lI o
          (processAllTribes (dangersFrom events) o.vo tribes
            (vs.filter (fun v => !v.isDead))).1
          (processAllTribes (dangersFrom events) o.vo tribes
            (vs.filter (fun v => !v.isDead))).2).1).1 events with
  | none => rw [hep] at hout; exact absurd hout (by simp)
  | some te =>
    rw [hep] at hout
    have h := (Option.some.injEq _ _).mp hout
    exact ⟨te, rfl, by rw [← h], by rw [← h]⟩

-- === CLAIM C1 ===

/-- Claim C1: if every input villager enters the tick with health, energy,
  hunger and happiness inside [0, 100], then every villager in the returned
  list (survivors, unreaped dead and a possible immigrant alike) has all
  four vitals inside [0, 100].  Hypothesis: all random draws of the oracle
  are faithful Math.random() values in [0, 1). -/
theorem tick_vitals_in_range (state : GameState) (tribes : List Tribe)
    (vs : List Villager) (events : List WorldEvent) (lI lS : ℕ)
    (o : TickOracle) (out : TickResult)
    (hval : o.Valid) (hin : ∀ v ∈ vs, vitalsOk v)
    (hout : advanceGameTick state tribes vs events lI lS o = some out) :
    ∀ w ∈ out.newVillagers, vitalsOk w := by
  obtain ⟨te, hep, hnv, hnt⟩ :=
    advanceGameTick_fields state tribes vs events lI lS o out hout
  obtain ⟨hvo, _, _, _, hHe, hEn, hHu, hHa, _⟩ := hval
  have h0 : ∀ w ∈ vs.filter (fun v => !v.isDead), vitalsOk w :=
    fun w hw => hin w (List.mem_of_mem_filter hw)
  have h1 : ∀ w ∈ (processAllTribes (dangersFrom events) o.vo tribes
      (vs.filter (fun v => !v.isDead))).2, vitalsOk w :=
    processAllTribes_pres vitalsOk _ o.vo
      (fun t v hv hnd => stepVillager_vitals _ t v _ (hvo v.id) hv hnd)
      tribes _ h0
  have h2 : ∀ w ∈ (immigrationPhase { state with gameTick := state.gameTick + 1 }
      lI o
      (processAllTribes (dangersFrom events) o.vo tribes
        (vs.filter (fun v => !v.isDead))).1
      (processAllTribes (dangersFrom events) o.vo tribes
        (vs.filter (fun v => !v.isDead))).2).1, vitalsOk w := by
    intro w hw
    rcases immigrationPhase_vs _ _ _ _ _ w hw with h | ⟨tid, rfl⟩
    · exact h1 w h
    · exact buildImmigrant_vitals o tid hHe hEn hHu hHa
  have h3 := splitPhase_vs_pres vitalsOk (fun _ _ _ _ hw => hw)
    { state with gameTick := state.gameTick + 1 } lS o
    (processAllTribes (dangersFrom events) o.vo tribes
      (vs.filter (fun v => !v.isDead))).1 _ h2
  intro w hw
  rw [hnv] at hw
  exact h3 w (List.mem_of_mem_filter hw)

/-- Claim C1 witness: the range invariant applied to the concrete C7 run,
  instantiated at the single output villager. -/
theorem tick_vitals_in_range_witness : vitalsOk villC7b :=
  tick_vitals_in_range stC7 [tribeC7] [villC7] [] 0 0 baseTO outC7
    baseTO_valid
    (by intro v hv
        rw [List.mem_singleton.mp hv]
        exact ⟨by norm_num [villC7, baseVillager], by norm_num [villC7, baseVillager],
          by norm_num [villC7, baseVillager], by norm_num [villC7, baseVillager],
          by norm_num [villC7, baseVillager], by norm_num [villC7, baseVillager],
          by norm_num [villC7, baseVillager], by norm_num [villC7, baseVillager]⟩)
    tickC7_full villC7b (by simp [outC7])

-- === CLAIM C4 ===

/-- Claim C4: if every input tribe has non-negative food, wood and stone,
  all villager work skills are non-negative (data-model range) and tribe
  ids are distinct (primary keys), then every tribe in the returned list
  still has non-negative food, wood and stone. -/
theorem tick_stocks_nonneg (state : GameState) (tribes : List Tribe)
    (vs : List Villager) (events : List WorldEvent) (lI lS : ℕ)
    (o : TickOracle) (out : TickResult)
    (hval : o.Valid) (htid : (tribes.map Tribe.id).Nodup)
    (hsk : ∀ v ∈ vs, skillsOk v) (htr : ∀ t ∈ tribes, tribeOk t)
    (hout : advanceGameTick state tribes vs events lI lS o = some out) :
    ∀ t ∈ out.newTribes, tribeOk t := by
  obtain ⟨te, hep, hnv, hnt⟩ :=
    advanceGameTick_fields state tribes vs events lI lS o out hout
  obtain ⟨hvo, _, _, _, _, _, _, _, _, _, _, _, _, _, _, _, _, _, _, _, _,
    _, _, _, _, _, hAmt, _⟩ := hval
  have h0 : ∀ w ∈ vs.filter (fun v => !v.isDead), skillsOk w :=
    fun w hw => hsk w (List.mem_of_mem_filter hw)
  have hpt : ∀ t' ∈ (processAllTribes (dangersFrom events) o.vo tribes
      (vs.filter (fun v => !v.isDead))).1, tribeOk t' :=
    processAllTribes_tribesOk _ o.vo tribes _ h0 htr
  have hnodup2 : ((processAllTribes (dangersFrom events) o.vo tribes
      (vs.filter (fun v => !v.isDead))).1.map Tribe.id).Nodup := by
    rw [processAllTribes_ids]
    exact htid
  have hsp := splitPhase_stocks { state with gameTick := state.gameTick + 1 }
    lS o
    (processAllTribes (dangersFrom events) o.vo tribes
      (vs.filter (fun v => !v.isDead))).1
    (immigrationPhase { state with gameTick := state.gameTick + 1 } lI o
      (processAllTribes (dangersFrom events) o.vo tribes
        (vs.filter (fun v => !v.isDead))).1
      (processAllTribes (dangersFrom events) o.vo tribes
        (vs.filter (fun v => !v.isDead))).2).1
    hnodup2 hpt
  have hev : ∀ t' ∈ te.1, tribeOk t' := by
    intro t' ht'
    rcases eventsPhase_tribes _ o _ events te hep t' ht' with h | ⟨a, ha, rfl⟩
    · exact hsp t' h
    · have hfa := (hsp a ha).1
      have hmul : (0:ℚ) ≤ o.evAmtU * 50 := mul_nonneg hAmt.1 (by norm_num)
      exact ⟨by dsimp only; linarith, (hsp a ha).2.1, (hsp a ha).2.2⟩
  intro t ht
  rw [hnt] at ht
  exact hev t (List.mem_of_mem_filter ht)

/-- Claim C4 witness: stockpile non-negativity applied to the concrete C7
  run, instantiated at the single output tribe. -/
theorem tick_stocks_nonneg_witness : tribeOk tribeC7 :=
  tick_stocks_nonneg stC7 [tribeC7] [villC7] [] 0 0 baseTO outC7
    baseTO_valid (by simp)
    (by intro v hv
        rw [List.mem_singleton.mp hv]
        exact ⟨by norm_num [villC7, baseVillager], by norm_num [villC7, baseVillager],
          by norm_num [villC7, baseVillager]⟩)
    (by intro t ht
        rw [List.mem_singleton.mp ht]
        exact ⟨by norm_num [tribeC7, baseTribe], by norm_num [tribeC7, baseTribe],
          by norm_num [tribeC7, baseTribe]⟩)
    tickC7_full tribeC7 (by simp [outC7])

-- === CLAIM C10 ===

/-- Claim C10: a villager present in both the input and the output of the
  tick keeps its happiness unchanged: no step of the tick writes the
  happiness field.  Well-formedness hypotheses: input villager ids are
  distinct and a possible immigrant id is fresh. -/
theorem tick_happiness_frame (state : GameState) (tribes : List Tribe)
    (vs : List Villager) (events : List WorldEvent) (lI lS : ℕ)
    (o : TickOracle) (out : TickResult)
    (hids : (vs.map Villager.id).Nodup)
    (hfresh : o.immId ∉ vs.map Villager.id)
    (hout : advanceGameTick state tribes vs events lI lS o = some out) :
    ∀ w ∈ out.newVillagers, ∀ v ∈ vs, w.id = v.id →
      w.happiness = v.happiness := by
  obtain ⟨te, hep, hnv, hnt⟩ :=
    advanceGameTick_fields state tribes vs events lI lS o out hout
  have hstep : ∀ (t : Tribe) (v : Villager),
      ((∃ u ∈ vs, v.id = u.id ∧ v.happiness = u.happiness) ∨ v.id = o.immId) →
      (stepVillager (dangersFrom events) t v (o.vo v.id)).1.isDead = false →
      ((∃ u ∈ vs, (stepVillager (dangersFrom events) t v (o.vo v.id)).1.id = u.id ∧
        (stepVillager (dangersFrom events) t v (o.vo v.id)).1.happiness = u.happiness) ∨
        (stepVillager (dangersFrom events) t v (o.vo v.id)).1.id = o.immId) := by
    intro t v hv _
    obtain ⟨hid, hhap⟩ := stepVillager_id_happiness (dangersFrom events) t v (o.vo v.id)
    rcases hv with ⟨u, hu, he1, he2⟩ | hR
    · exact Or.inl ⟨u, hu, hid.trans he1, hhap.trans he2⟩
    · exact Or.inr (hid.trans hR)
  have h0 : ∀ w ∈ vs.filter (fun v => !v.isDead),
      (∃ u ∈ vs, w.id = u.id ∧ w.happiness = u.happiness) ∨ w.id = o.immId :=
    fun w hw => Or.inl ⟨w, List.mem_of_mem_filter hw, rfl, rfl⟩
  have h1 := processAllTribes_pres
    (fun w => (∃ u ∈ vs, w.id = u.id ∧ w.happiness = u.happiness) ∨ w.id = o.immId)
    _ o.vo hstep tribes _ h0
  have h2 : ∀ w ∈ (immigrationPhase { state with gameTick := state.gameTick + 1 }
      lI o
      (processAllTribes (dangersFrom events) o.vo tribes
        (vs.filter (fun v => !v.isDead))).1
      (processAllTribes (dangersFrom events) o.vo tribes
        (vs.filter (fun v => !v.isDead))).2).1,
      (∃ u ∈ vs, w.id = u.id ∧ w.happiness = u.happiness) ∨ w.id = o.immId := by
    intro w hw
    rcases immigrationPhase_vs _ _ _ _ _ w hw with h | ⟨tid, rfl⟩
    · exact h1 w h
    · exact Or.inr rfl
  have h3 := splitPhase_vs_pres
    (fun w => (∃ u ∈ vs, w.id = u.id ∧ w.happiness = u.happiness) ∨ w.id = o.immId)
    (fun tid x y w hw => hw)
    { state with gameTick := state.gameTick + 1 } lS o
    (processAllTribes (dangersFrom events) o.vo tribes
      (vs.filter (fun v => !v.isDead))).1 _ h2
  intro w hw v hv hid
  rw [hnv] at hw
  rcases h3 w (List.mem_of_mem_filter hw) with ⟨u, hu, he1, he2⟩ | hR
  · have huv : u = v := List.inj_on_of_nodup_map hids hu hv (he1.symm.trans hid)
    rw [he2, huv]
  · exfalso
    apply hfresh
    have hv' : v.id ∈ vs.map Villager.id := List.mem_map_of_mem Villager.id hv
    rwa [← hid, hR] at hv'

/-- Claim C10 witness: happiness preservation applied to the concrete C7
  run, instantiated at the single surviving villager. -/
theorem tick_happiness_frame_witness : villC7b.happiness = villC7.happiness :=
  tick_happiness_frame stC7 [tribeC7] [villC7] [] 0 0 baseTO outC7
    (by simp) (by norm_num [baseTO, villC7, baseVillager]) tickC7_full
    villC7b (by simp [outC7]) villC7 (List.mem_singleton.mpr rfl) rfl

end Isola
